import Mathlib

/-!
Shallow embedding of `src/timing_analysis/outlier_utils.py` (pint_pal).

Modelling conventions:
* Python floats are modelled as rationals (`ℚ`); Python ints as `ℤ`/`ℕ`.
* Fallible Python code (ZeroDivisionError, AttributeError, NameError,
  IndexError, TypeError) is modelled with `Except String`, the string naming
  the exception class.
* The external scientific collaborators (PINT's GLS fitter and residual dof,
  scipy's `fdtr`, the `setup_dmx` window rebuild, the HMC/Gibbs samplers) are
  not reimplemented; they enter as function parameters, so every theorem holds
  for an arbitrary behaviour of those collaborators.
* TOA flag dictionaries are association lists `List (String × FlagVal)`;
  the current selection of a `TOAs` object is a list of indices into
  `orig_table`, which models PINT's shared flag dictionaries between
  `toas.table` and `toas.orig_table` (mutating a flag through `orig_table`
  is visible through `table`).
-/

namespace OutlierUtils

/-- A TOA flag value: PINT flags are strings, but `calculate_pout` stores the
outlier probability (a float) directly into the flag dict. -/
inductive FlagVal where
  | str (s : String)
  | num (q : ℚ)
deriving DecidableEq, Repr, Inhabited

/-- One TOA table row.  Only the columns read by `outlier_utils.py` are kept:
`t[1]` (mjd, used via `int(t[1].value)`), `t[2]` (mjd in days, float),
`t[3]` (error in microseconds), `t[6]` (flags dict). -/
structure TOA where
  mjd1 : ℚ
  mjd : ℚ
  err : ℚ
  flags : List (String × FlagVal)
deriving DecidableEq, Repr, Inhabited

/-- Python dict lookup `t[6][k]`, as an `Option` (the source only reads keys
that are present on well-formed TOAs). -/
def getFlag (t : TOA) (k : String) : Option FlagVal :=
  (t.flags.find? (fun p => p.1 = k)).map (·.2)

/-- Python dict assignment `t[6][k] = v`: replace the first binding of `k`,
or append a new one. -/
def setAssoc : List (String × FlagVal) → String → FlagVal → List (String × FlagVal)
  | [], k, v => [(k, v)]
  | (k', v') :: rest, k, v =>
      if k' = k then (k, v) :: rest else (k', v') :: setAssoc rest k v

def setFlag (t : TOA) (k : String) (v : FlagVal) : TOA :=
  { t with flags := setAssoc t.flags k v }

/-- `pint.toa.TOAs`, reduced to what the source touches.  `sel` is the index
column of the current `toas.table` into `orig_table`; `stack` records the
tables saved by `select` so that `unselect` can restore them. -/
structure TOAs where
  orig_table : List TOA
  sel : List ℕ
  stack : List (List ℕ)
deriving DecidableEq, Repr, Inhabited

/-- The current `toas.table`. -/
def TOAs.table (ts : TOAs) : List TOA :=
  ts.sel.filterMap (fun i => ts.orig_table.get? i)

/-- `toas.ntoas`. -/
def TOAs.ntoas (ts : TOAs) : ℕ := ts.table.length

/-- `toas.select(mask)`: keep the rows of the current table whose mask entry
is `true`, saving the previous selection for `unselect`. -/
def TOAs.select (ts : TOAs) (mask : List Bool) : TOAs :=
  ⟨ts.orig_table,
   ((ts.sel.zip mask).filterMap (fun p => if p.2 then some p.1 else none)),
   ts.sel :: ts.stack⟩

/-- `toas.unselect()`: restore the last selection saved by `select`. -/
def TOAs.unselect (ts : TOAs) : TOAs :=
  match ts.stack with
  | [] => ts
  | s :: rest => ⟨ts.orig_table, s, rest⟩

/-- The raw assignment `toas.table = toas.orig_table`: the current table
becomes the full original table (the select stack is untouched). -/
def TOAs.restoreFull (ts : TOAs) : TOAs :=
  ⟨ts.orig_table, List.range ts.orig_table.length, ts.stack⟩

/-- Python `int()` truncation (toward zero) of a float, for `int(t[1].value)`. -/
def pyInt (q : ℚ) : ℤ :=
  if 0 ≤ q.num then ((q.num.toNat / q.den : ℕ) : ℤ)
  else -((q.num.natAbs / q.den : ℕ) : ℤ)

/-- Iteration over `set(xs)` is modelled as the duplicate-free list of first
occurrences (the Python iteration order over a `set` is unspecified). -/
def pyset {α : Type} [DecidableEq α] (l : List α) : List α :=
  l.foldl (fun acc x => if x ∈ acc then acc else acc ++ [x]) []

/-- `np.where(names == x)[0]`: the indices of `l` holding `x`. -/
def whereEq {α : Type} [DecidableEq α] (l : List α) (x : α) : List ℕ :=
  l.enum.filterMap (fun p => if p.2 = x then some p.1 else none)

/-! ### Python `format(x, 'e')` on the values reaching `f"{ftest:e}"`

`ftest` is either a float or the bool `False`; `bool` is an `int` subclass in
Python, so `format(False, 'e')` formats the integer `0` as a float, giving
`0.000000e+00`.  Floats are modelled as rationals, formatted with six
fractional digits and round-half-to-even. -/

/-- The decimal exponent `e` with `10^e ≤ q < 10^(e+1)`, for `q > 0`. -/
def sciExp (q : ℚ) : ℤ :=
  let e0 : ℤ := (Nat.log 10 q.num.natAbs : ℤ) - (Nat.log 10 q.den : ℤ)
  if (10 : ℚ) ^ e0 ≤ q then e0 else e0 - 1

/-- Round half to even (the rounding used when formatting). -/
def roundHalfEven (q : ℚ) : ℤ :=
  let fl := ⌊q⌋
  let fr := q - fl
  if fr < 1 / 2 then fl
  else if 1 / 2 < fr then fl + 1
  else if fl % 2 = 0 then fl else fl + 1

/-- `format(q, 'e')` for a rational `q` (Python's `'e'` spec: one leading
digit, six fractional digits, sign and at least two digits of exponent). -/
def pyFormatE (q : ℚ) : String :=
  if q = 0 then "0.000000e+00"
  else
    let sgn := if q < 0 then "-" else ""
    let aq := |q|
    let e := sciExp aq
    let m := roundHalfEven (aq * (10 : ℚ) ^ ((6 : ℤ) - e))
    let me := if (10 : ℤ) ^ (7 : ℕ) ≤ m then (m / 10, e + 1) else (m, e)
    let s := toString me.1
    let mantissa := s.take 1 ++ "." ++ s.drop 1
    let esign := if me.2 < 0 then "-" else "+"
    let ea := me.2.natAbs
    let estr := if ea < 10 then "0" ++ toString ea else toString ea
    sgn ++ mantissa ++ "e" ++ esign ++ estr

/-! ### `Ftest` (lines 144-169) -/

/-- The value of the Python variable `ft`: either the sentinel `False`
(chi² did not improve) or a float probability. -/
inductive FtestResult where
  | sentinel
  | val (v : ℚ)
deriving DecidableEq, Repr, Inhabited

/-- Python's numeric view of `ft` as used by `ftest < ftest_threshold` and
`f"{ftest:e}"`: the bool `False` is the integer `0`. -/
def ftestVal : FtestResult → ℚ
  | .sentinel => 0
  | .val v => v

/-- `f"{ftest:e}"`. -/
def pyFormatEFtest (r : FtestResult) : String := pyFormatE (ftestVal r)

/-- `Ftest(chi2_1, dof_1, chi2_2, dof_2)` (lines 161-169).  `fdtr` is scipy's
F-distribution CDF, an external collaborator passed as a parameter.  The
divisions are modelled in the order Python evaluates them:
`chi2_2 / dof_2` (line 164), then `delta_chi2 / delta_dof`, then the division
by `new_redchi2` (line 165); each raises `ZeroDivisionError` on a zero
divisor. -/
def Ftest (fdtr : ℚ → ℚ → ℚ → ℚ) (chi2_1 : ℚ) (dof_1 : ℤ) (chi2_2 : ℚ)
    (dof_2 : ℤ) : Except String FtestResult :=
  let delta_chi2 := chi2_1 - chi2_2
  if 0 < delta_chi2 then
    let delta_dof := dof_1 - dof_2
    if dof_2 = 0 then .error "ZeroDivisionError"
    else
      let new_redchi2 := chi2_2 / (dof_2 : ℚ)
      if delta_dof = 0 then .error "ZeroDivisionError"
      else if new_redchi2 = 0 then .error "ZeroDivisionError"
      else
        let F := (delta_chi2 / (delta_dof : ℚ)) / new_redchi2
        .ok (.val (1 - fdtr (delta_dof : ℚ) (dof_2 : ℚ) F))
  else .ok .sentinel

/-! ### The timing model's DMX component -/

/-- One DMX time window: the values of the parameters `DMXR1_i` (lower bound)
and `DMXR2_i` (upper bound). -/
structure DMXWindow where
  r1 : ℚ
  r2 : ℚ
deriving DecidableEq, Repr, Inhabited

/-- The timing model, reduced to the `DispersionDMX` component the source
manipulates: the indexed collection of DMX windows.  Keeping the index with
each window models the string-named parameters `DMXR1_i`/`DMXR2_i`/`DMX_i`
(`remove_param` deletes one index; the others keep their names). -/
structure Model where
  dmx : List (ℕ × DMXWindow)
deriving DecidableEq, Repr, Inhabited

/-- A freshly set-up model has windows contiguously indexed `1..n`. -/
def enumFrom (k : ℕ) : List DMXWindow → List (ℕ × DMXWindow)
  | [] => []
  | w :: ws => (k, w) :: enumFrom (k + 1) ws

def Model.ofWindows (ws : List DMXWindow) : Model := ⟨enumFrom 1 ws⟩

/-- `getattr(model.components['DispersionDMX'], f"DMXR1_{i:04d}")` etc.:
look up window `i`; `none` models the `AttributeError` of a missing
parameter. -/
def lookupDMX (dmx : List (ℕ × DMXWindow)) (i : ℕ) : Option DMXWindow :=
  (dmx.find? (fun p => p.1 = i)).map (·.2)

/-- `remove_param` of `DMXR1_i`, `DMXR2_i` and `DMX_i` (lines 239-241):
delete window `i`. -/
def Model.removeDMX (m : Model) (i : ℕ) : Model :=
  ⟨m.dmx.filter (fun p => ¬ p.1 = i)⟩

/-- The `while dmxindex == None` search (lines 215-225): try windows
`i = 1, 2, ...` until one strictly contains `toaval`; the `getattr` for the
first missing index raises `AttributeError`.  The fuel `dmx.length + 1` is
enough to reach a missing index: `dmx` can cover at most `dmx.length`
distinct indices. -/
def findDMXGo (dmx : List (ℕ × DMXWindow)) (toaval : ℚ) :
    ℕ → ℕ → Except String (ℕ × DMXWindow)
  | 0, _ => .error "AttributeError"
  | fuel + 1, i =>
      match lookupDMX dmx i with
      | none => .error "AttributeError"
      | some w =>
          if w.r1 < toaval ∧ toaval < w.r2 then .ok (i, w)
          else findDMXGo dmx toaval fuel (i + 1)

def findDMX (dmx : List (ℕ × DMXWindow)) (toaval : ℚ) :
    Except String (ℕ × DMXWindow) :=
  findDMXGo dmx toaval (dmx.length + 1) 1

/-! ### Cut management collaborators

`apply_cut_flag` and `apply_cut_select` live in `timing_analysis/utils.py`,
which is part of this repository but not under `src/`; they are modelled from
the spec. -/

def listModify {α : Type} (l : List α) (i : ℕ) (f : α → α) : List α :=
  match l, i with
  | [], _ => []
  | x :: rest, 0 => f x :: rest
  | x :: rest, n + 1 => x :: listModify rest n f

/-- Modelled from the spec: `apply_cut_flag` (from `timing_analysis.utils`,
not under `src/`) records the cut reason as the per-TOA flag `"cut"` on the
original table at the given indices ("flags TOAs ... as cut"; the flag is
visible through the current table since flag dicts are shared). -/
def apply_cut_flag (ts : TOAs) (inds : List ℕ) (reason : String) : TOAs :=
  ⟨inds.foldl (fun tbl i => listModify tbl i (fun t => setFlag t "cut" (.str reason)))
      ts.orig_table,
   ts.sel, ts.stack⟩

/-- Modelled from the spec: `apply_cut_select` (from
`timing_analysis.utils`, not under `src/`) masks out, via the TOA set's
select mechanism, the TOAs of the current table whose `"cut"` flag is set. -/
def apply_cut_select (ts : TOAs) (reason : String) : TOAs :=
  ts.select (ts.table.map (fun t => decide (getFlag t "cut" = none)))

/-! ### `epochalyptica` (lines 171-276) -/

/-- `t[6]['name'] == filename` (line 208); the loop variable `filename`
ranges over `set(filenames)` where `filenames` may contain `None` for TOAs
without a `name` flag, hence the `Option`. -/
def nameMatches (filename : Option FlagVal) (t : TOA) : Bool :=
  decide (getFlag t "name" = filename)

/-- The state of the per-epoch bookkeeping variables of lines 198-227. -/
structure Gather where
  receiver : Option FlagVal
  mjd : Option ℤ
  toaval : Option ℚ
  dmxfound : Option (ℕ × DMXWindow)
  sum : ℚ
  mask : List Bool
deriving DecidableEq, Repr, Inhabited

def Gather.init : Gather := ⟨none, none, none, none, 0, []⟩

/-- The first inner loop over `toas.table` (lines 207-227): collect the
epoch's receiver, integer MJD, first TOA value (with its DMX window, found by
`findDMX`), the sum of `1/error²`, and the boolean mask (`True` keeps a TOA,
`False` masks the epoch out).  Dividing by a zero error raises
`ZeroDivisionError`. -/
def gatherEpoch (dmx : List (ℕ × DMXWindow)) (filename : Option FlagVal) :
    List TOA → Gather → Except String Gather
  | [], g => .ok g
  | t :: rest, g =>
      if nameMatches filename t then do
        let receiver := if g.receiver = none then getFlag t "f" else g.receiver
        let mjd := if g.mjd = none then some (pyInt t.mjd1) else g.mjd
        let dmxfound ←
          if g.toaval = none then (findDMX dmx t.mjd).map some
          else pure g.dmxfound
        let toaval := if g.toaval = none then some t.mjd else g.toaval
        if t.err = 0 then .error "ZeroDivisionError"
        else
          gatherEpoch dmx filename rest
            ⟨receiver, mjd, toaval, dmxfound, g.sum + 1 / t.err ^ 2,
             g.mask ++ [false]⟩
      else gatherEpoch dmx filename rest { g with mask := g.mask ++ [true] }

/-- One `epochdrop.txt` line (line 252), kept structured:
`filename receiver mjd (ntoas_init - ntoas) ftest uncertainty`.  The `ftest`
field is written through the format spec `e` (`ftestStr`); the uncertainty
written is `1.0/np.sqrt(usum)` — the square root is applied by numpy, so the
line records its argument `usum`, the sum of `1/error²`. -/
structure EpochLine where
  filename : Option FlagVal
  receiver : Option FlagVal
  mjd : ℤ
  toas_removed : ℤ
  ftest : FtestResult
  ftestStr : String
  usum : ℚ
deriving DecidableEq, Repr, Inhabited

/-- Everything one iteration of the `for filename in set(filenames)` loop
computes. -/
structure EpochStepOut where
  filename : Option FlagVal
  line : EpochLine
  drop : Bool
  newmodel : Model
  chi2 : ℚ
  ndof : ℤ
  ntoas : ℕ
  toasAfter : TOAs
deriving DecidableEq, Repr, Inhabited

/-- One iteration of the epoch loop (lines 197-253).  `fitO`/`dofO` are the
external GLS fitter and residual-dof computation.  Notes kept from the
source:
* `f.reset_model()` (line 230) has no observable effect in this pure model;
* `dmxfound = none` means the epoch has no TOA in the current table, and the
  comparison `toa[2] > dmxlower` with `dmxlower = None` raises `TypeError`
  (unreachable for epochs drawn from the table's own names);
* `redchi2 = chi2 / ndof` (line 246) raises `ZeroDivisionError` when
  `ndof = 0`;
* when `ndof_init != ndof`, `ftest < ftest_threshold` compares the Python
  value of `ftest` — the sentinel `False` compares as `0`. -/
def epochStep (fdtr : ℚ → ℚ → ℚ → ℚ) (fitO : Model → List TOA → ℚ)
    (dofO : Model → List TOA → ℤ) (model : Model) (chi2_init : ℚ)
    (ndof_init : ℤ) (ntoas_init : ℕ) (ftest_threshold : ℚ) (toas : TOAs)
    (filename : Option FlagVal) : Except String EpochStepOut := do
  let g ← gatherEpoch model.dmx filename toas.table Gather.init
  let toas1 := toas.select g.mask
  let dw ← match g.dmxfound with
    | none => Except.error "TypeError"
    | some p => pure p
  let numtoas_in_dmxrange :=
    (toas1.table.filter (fun t => decide (dw.2.r1 < t.mjd ∧ t.mjd < dw.2.r2))).length
  let newmodel := if numtoas_in_dmxrange = 0 then model.removeDMX dw.1 else model
  let chi2 := fitO newmodel toas1.table
  let ndof := dofO newmodel toas1.table
  let ntoas := toas1.ntoas
  if ndof = 0 then Except.error "ZeroDivisionError"
  else do
    let fd ←
      if ndof_init ≠ ndof then do
        let ft ← Ftest fdtr chi2_init ndof_init chi2 ndof
        pure (ft, decide (ftestVal ft < ftest_threshold))
      else pure (FtestResult.sentinel, false)
    let mjd ← match g.mjd with
      | none => Except.error "TypeError"
      | some m => pure m
    let line : EpochLine :=
      ⟨filename, g.receiver, mjd, (ntoas_init : ℤ) - (ntoas : ℤ), fd.1,
       pyFormatEFtest fd.1, g.sum⟩
    pure ⟨filename, line, fd.2, newmodel, chi2, ndof, ntoas, toas1.unselect⟩

/-- The `for filename in set(filenames)` loop, threading the (selected then
restored) TOA object from iteration to iteration exactly as the source
mutates it in place. -/
def runEpochs (fdtr : ℚ → ℚ → ℚ → ℚ) (fitO : Model → List TOA → ℚ)
    (dofO : Model → List TOA → ℤ) (model : Model) (chi2_init : ℚ)
    (ndof_init : ℤ) (ntoas_init : ℕ) (ftest_threshold : ℚ) :
    List (Option FlagVal) → TOAs → Except String (List EpochStepOut × TOAs)
  | [], ts => .ok ([], ts)
  | e :: es, ts => do
      let out ← epochStep fdtr fitO dofO model chi2_init ndof_init ntoas_init
        ftest_threshold ts e
      let rest ← runEpochs fdtr fitO dofO model chi2_init ndof_init ntoas_init
        ftest_threshold es out.toasAfter
      pure (out :: rest.1, rest.2)

/-- The observable outcome of `epochalyptica`. -/
structure EpochOut where
  chi2_init : ℚ
  ndof_init : ℤ
  ntoas_init : ℕ
  steps : List EpochStepOut
  lines : List EpochLine
  epochs_to_drop : List (Option FlagVal)
  cutsApplied : Bool
  dmxRerun : Bool
  logs : List String
  writtenModel : Model
  writtenToas : TOAs
  finalToas : TOAs
deriving DecidableEq, Repr, Inhabited

/-- Lines 254-276 of `epochalyptica`, after the loop has produced `steps`
and left the TOA object as `toas1`:
* line 249 appended the dropped filenames inside the loop; collecting them
  from the steps in loop order is the same list;
* lines 256-260 apply the `epochdrop` cut flag to the original-table rows of
  every dropped epoch;
* lines 262-267 apply the cut selection and rerun `setup_dmx` only when at
  least one epoch was dropped, otherwise log the informational message;
* lines 269-276 restore the full table
  (`toas.table = toas.orig_table`), hand `(toas, model)` to
  `construct_fitter`/`write_tim` for `_excise.tim`, and re-mask. -/
def epochPost (setupDmx : Model → TOAs → Model × TOAs) (model : Model)
    (chi2_init : ℚ) (ndof_init : ℤ) (ntoas_init : ℕ)
    (steps : List EpochStepOut) (toas1 : TOAs) : EpochOut :=
  let lines := steps.map (·.line)
  let epochs_to_drop := (steps.filter (·.drop)).map (·.filename)
  let names := toas1.orig_table.map (fun t => getFlag t "name")
  let toas2 := epochs_to_drop.foldl
    (fun ts etd => apply_cut_flag ts (whereEq names etd) "epochdrop") toas1
  let post :=
    if epochs_to_drop.length ≠ 0 then
      (setupDmx model (apply_cut_select toas2 "epoch drop analysis"),
       true, true, ([] : List String))
    else ((model, toas2), false, false,
      ["No epochs dropped (epochalyptica)."])
  let toas4 := post.1.2.restoreFull
  let toas5 := apply_cut_select toas4 "resumption after write_tim (excise)"
  ⟨chi2_init, ndof_init, ntoas_init, steps, lines, epochs_to_drop,
    post.2.1, post.2.2.1, post.2.2.2, post.1.1, toas4, toas5⟩

/-- `epochalyptica(model, toas, tc_object, ftest_threshold=1.0e-6)`
(lines 171-276).  `setupDmx` is the external `setup_dmx` collaborator (it
mutates the model's DMX windows in place and returns the TOAs); `fitO`/`dofO`
as in `epochStep`; both are pure functions of their arguments, so the
initial fit values `chi2_init`/`ndof_init`/`ntoas_init` (lines 184-188) may
be written inline.  Line 188 (`redchi2_init = chi2_init / ndof_init`) raises
`ZeroDivisionError` when the initial dof is zero. -/
def epochalyptica (fdtr : ℚ → ℚ → ℚ → ℚ) (fitO : Model → List TOA → ℚ)
    (dofO : Model → List TOA → ℤ) (setupDmx : Model → TOAs → Model × TOAs)
    (model : Model) (toas : TOAs) (ftest_threshold : ℚ) :
    Except String EpochOut :=
  if dofO model toas.table = 0 then .error "ZeroDivisionError"
  else
    (runEpochs fdtr fitO dofO model (fitO model toas.table)
        (dofO model toas.table) toas.ntoas ftest_threshold
        (pyset (toas.table.map (fun t => getFlag t "name"))) toas).map
      (fun r => epochPost setupDmx model (fitO model toas.table)
        (dofO model toas.table) toas.ntoas r.1 r.2)

/-! ### `calculate_pout` (lines 83-120) -/

/-- The observable outcome of `calculate_pout`: the TOA set after the flag
loop, what `construct_fitter`/`write_tim` receive for `_pout.tim`, and the
re-masked final set. -/
structure PoutOut where
  toas : TOAs
  writtenModel : Model
  writtenToas : TOAs
  finalToas : TOAs
deriving DecidableEq, Repr, Inhabited

/-- The flag loop of lines 110-111:
`for i, oi in enumerate(toas.table['index']): `
`    toas.orig_table[oi]['flags'][f'pout_{method}'] = pout[i]`.
The pairs `(i, oi)` enumerate the current selection.  When `pout` was never
assigned (unrecognized method) the first loop iteration raises `NameError`;
`pout[i]` past the end and `orig_table[oi]` past the end raise
`IndexError`. -/
def writePoutFlags (method : String) (pout : Option (List ℚ)) :
    ℕ → List ℕ → TOAs → Except String TOAs
  | _, [], ts => .ok ts
  | i, oi :: rest, ts =>
      match pout with
      | none => .error "NameError"
      | some p =>
          match p.get? i with
          | none => .error "IndexError"
          | some v =>
              if oi < ts.orig_table.length then
                writePoutFlags method pout (i + 1) rest
                  ⟨listModify ts.orig_table oi
                      (fun t => setFlag t ("pout_" ++ method) (.num v)),
                   ts.sel, ts.stack⟩
              else .error "IndexError"

/-- `calculate_pout(model, toas, tc_object)` (lines 83-120).  `hmcO`/`gibbsO`
are the external samplers (`OutlierHMC`, `gibbs_run`), one outlier
probability per current TOA.  Returns the log messages together with the
outcome; an unrecognized method only logs (line 107) — the exception
(`NameError`, from the never-assigned `pout`) is raised later, at the first
iteration of the flag loop. -/
def calculate_pout (hmcO gibbsO : TOAs → List ℚ) (method : String)
    (model : Model) (toas : TOAs) : List String × Except String PoutOut :=
  let pout : Option (List ℚ) :=
    if method = "hmc" then some (hmcO toas)
    else if method = "gibbs" then some (gibbsO toas)
    else none
  let logs : List String :=
    if method = "hmc" ∨ method = "gibbs" then []
    else ["Specified method (" ++ method ++ ") is not recognized."]
  let res : Except String PoutOut := do
    let toasF ← writePoutFlags method pout 0 toas.sel toas
    -- line 114: toas.table = toas.orig_table
    let toasW := toasF.restoreFull
    -- line 120: apply_cut_select(toas, reason='resumption after write_tim, pout')
    let toasM := apply_cut_select toasW "resumption after write_tim, pout"
    pure ⟨toasF, model, toasW, toasM⟩
  (logs, res)

/-! ### Concrete scenarios

Small closed instances of the collaborators and data, used by the witnesses
and counterexamples below. -/

/-- A concrete stand-in for scipy's `fdtr` (any function works for the
structural facts; `1/2` is inside `(0,1)` as the real `fdtr` is for positive
arguments). -/
def fdtr0 : ℚ → ℚ → ℚ → ℚ := fun _ _ _ => 1 / 2

def exW1 : DMXWindow := ⟨0, 10⟩
def exW2 : DMXWindow := ⟨10, 20⟩
def exModel : Model := Model.ofWindows [exW1, exW2]

def exT1 : TOA := ⟨5, 5, 1, [("name", .str "a"), ("f", .str "rx1")]⟩
def exT2 : TOA := ⟨15, 15, 1, [("name", .str "a"), ("f", .str "rx1")]⟩
def exT3 : TOA := ⟨15, 15, 2, [("name", .str "b"), ("f", .str "rx2")]⟩
def exToas : TOAs := ⟨[exT1, exT2, exT3], [0, 1, 2], []⟩

def exFit : Model → List TOA → ℚ := fun _ ts => 10 - (ts.length : ℚ)
def exDof : Model → List TOA → ℤ := fun m _ => (m.dmx.length : ℤ)
def exSetup : Model → TOAs → Model × TOAs := fun m ts => (m, ts)

/-- A full `epochalyptica` run on the scenario above with the default
threshold `1.0e-6`. -/
def exRun : Except String EpochOut :=
  epochalyptica fdtr0 exFit exDof exSetup exModel exToas (1 / 1000000)

/-- The same run with threshold `0` (then nothing is dropped). -/
def exRun0 : Except String EpochOut :=
  epochalyptica fdtr0 exFit exDof exSetup exModel exToas 0

def exOut : EpochOut := exRun.toOption.getD default
def exOut0 : EpochOut := exRun0.toOption.getD default

/-- Second scenario: the refit improves chi², so `Ftest` returns a numeric
value. -/
def exT4 : TOA := ⟨15, 15, 1, [("name", .str "b"), ("f", .str "rx2")]⟩
def ex2Toas : TOAs := ⟨[exT1, exT4], [0, 1], []⟩
def ex2Fit : Model → List TOA → ℚ := fun _ ts => (ts.length : ℚ)
def ex2Dof : Model → List TOA → ℤ := fun m ts => (m.dmx.length : ℤ) + (ts.length : ℤ)

/-- The epoch-`"a"` iteration of the second scenario (`chi2_init = 2`,
`ndof_init = 4`, `ntoas_init = 2` are what `epochalyptica` computes there). -/
def ex2Step : Except String EpochStepOut :=
  epochStep fdtr0 ex2Fit ex2Dof exModel 2 4 2 (1 / 1000000) ex2Toas
    (some (.str "a"))

def ex2Out : EpochStepOut := ex2Step.toOption.getD default

/-! ### Theorems: the `Ftest` claims -/

/-- Claim C2: whenever the candidate chi² is not lower than the baseline's
(`chi2_2 ≥ chi2_1`), `Ftest` returns the sentinel (Python `False`) — which is
not a numeric `.val` — and raises no exception. -/
theorem c2_ftest_sentinel (fdtr : ℚ → ℚ → ℚ → ℚ) (chi2_1 : ℚ) (dof_1 : ℤ)
    (chi2_2 : ℚ) (dof_2 : ℤ) (h : chi2_1 ≤ chi2_2) :
    Ftest fdtr chi2_1 dof_1 chi2_2 dof_2 = .ok .sentinel := by
  unfold Ftest
  have hneg : ¬ (0 < chi2_1 - chi2_2) := by linarith
  simp [hneg]

/-- Witness for C2 at the spec's test point `chi2_1=100, dof_1=50,
chi2_2=110, dof_2=48`. -/
theorem c2_ftest_sentinel_witness :
    Ftest fdtr0 100 50 110 48 = .ok .sentinel :=
  c2_ftest_sentinel fdtr0 100 50 110 48 (by norm_num)

/-- Claim C3: with `chi2_1 > chi2_2 > 0` and `dof_1 > dof_2 > 0`, `Ftest`
returns the numeric value `1 - fdtr (dof_1 - dof_2) dof_2 F` at
`F = ((chi2_1 - chi2_2)/(dof_1 - dof_2)) / (chi2_2/dof_2)`, and the value
lies in `(0,1) ⊆ [0,1]` whenever the external `fdtr` maps positive arguments
into `(0,1)` (as the F-distribution CDF does). -/
theorem c3_ftest_numeric (fdtr : ℚ → ℚ → ℚ → ℚ)
    (hfdtr : ∀ a b x : ℚ, 0 < a → 0 < b → 0 < x →
      0 < fdtr a b x ∧ fdtr a b x < 1)
    (chi2_1 chi2_2 : ℚ) (dof_1 dof_2 : ℤ) (h2 : 0 < chi2_2)
    (h12 : chi2_2 < chi2_1) (hd2 : 0 < dof_2) (hd12 : dof_2 < dof_1) :
    Ftest fdtr chi2_1 dof_1 chi2_2 dof_2 =
      .ok (.val (1 - fdtr ((dof_1 : ℚ) - (dof_2 : ℚ)) (dof_2 : ℚ)
        (((chi2_1 - chi2_2) / ((dof_1 : ℚ) - (dof_2 : ℚ))) /
          (chi2_2 / (dof_2 : ℚ))))) ∧
    0 < 1 - fdtr ((dof_1 : ℚ) - (dof_2 : ℚ)) (dof_2 : ℚ)
        (((chi2_1 - chi2_2) / ((dof_1 : ℚ) - (dof_2 : ℚ))) /
          (chi2_2 / (dof_2 : ℚ))) ∧
    1 - fdtr ((dof_1 : ℚ) - (dof_2 : ℚ)) (dof_2 : ℚ)
        (((chi2_1 - chi2_2) / ((dof_1 : ℚ) - (dof_2 : ℚ))) /
          (chi2_2 / (dof_2 : ℚ))) < 1 := by
  have hdelta : (0 : ℚ) < chi2_1 - chi2_2 := by linarith
  have hd2q : (0 : ℚ) < (dof_2 : ℚ) := by exact_mod_cast hd2
  have hddq : (0 : ℚ) < (dof_1 : ℚ) - (dof_2 : ℚ) := by
    have : (dof_2 : ℚ) < (dof_1 : ℚ) := by exact_mod_cast hd12
    linarith
  have hF : (0 : ℚ) <
      ((chi2_1 - chi2_2) / ((dof_1 : ℚ) - (dof_2 : ℚ))) / (chi2_2 / (dof_2 : ℚ)) :=
    div_pos (div_pos hdelta hddq) (div_pos h2 hd2q)
  have hfr := hfdtr _ _ _ hddq hd2q hF
  refine ⟨?_, by linarith [hfr.2], by linarith [hfr.1]⟩
  unfold Ftest
  have hd2ne : ¬ dof_2 = 0 := by omega
  have hdd : ¬ dof_1 - dof_2 = 0 := by omega
  have hnr : ¬ chi2_2 / (dof_2 : ℚ) = 0 := by positivity
  simp only [hdelta, if_pos, hd2ne, if_neg, hdd, hnr, if_false]
  have hcast : ((dof_1 - dof_2 : ℤ) : ℚ) = (dof_1 : ℚ) - (dof_2 : ℚ) := by
    push_cast; ring
  rw [hcast]

/-- Witness for C3 at the spec's test point `chi2_1=120, dof_1=50,
chi2_2=100, dof_2=48` (with the concrete `fdtr0 = 1/2`): the result is the
numeric value `1 - fdtr 2 48 ((20/2)/(100/48)) = 1/2 ∈ (0,1)`. -/
theorem c3_ftest_numeric_witness :
    Ftest fdtr0 120 50 100 48 =
      .ok (.val (1 - fdtr0 ((50 : ℚ) - 48) 48 ((((120 : ℚ) - 100) / ((50 : ℚ) - 48)) / (100 / 48)))) ∧
    0 < 1 - fdtr0 ((50 : ℚ) - 48) 48 ((((120 : ℚ) - 100) / ((50 : ℚ) - 48)) / (100 / 48)) ∧
    1 - fdtr0 ((50 : ℚ) - 48) 48 ((((120 : ℚ) - 100) / ((50 : ℚ) - 48)) / (100 / 48)) < 1 :=
  c3_ftest_numeric fdtr0
    (fun _ _ _ _ _ _ => by unfold fdtr0; norm_num)
    120 100 50 48 (by norm_num) (by norm_num) (by norm_num) (by norm_num)

/-- Claim C9: `Ftest` is not total without a degrees-of-freedom
precondition.  (1) Whenever `chi2_1 > chi2_2` but `dof_1 = dof_2`, it raises
`ZeroDivisionError` (either at `chi2_2/dof_2` when the common dof is `0`, or
at `delta_chi2/delta_dof`).  (2) The numeric branch is safe once
`dof_1 ≠ dof_2` (the check `ndof_init != ndof` the `epochalyptica` caller
performs before calling) together with the implicit nondegeneracy
`dof_2 ≠ 0`, `chi2_2 ≠ 0` of a real fit. -/
theorem c9_ftest_div_by_zero :
    (∀ (fdtr : ℚ → ℚ → ℚ → ℚ) (chi2_1 chi2_2 : ℚ) (d : ℤ), chi2_2 < chi2_1 →
      Ftest fdtr chi2_1 d chi2_2 d = .error "ZeroDivisionError") ∧
    (∀ (fdtr : ℚ → ℚ → ℚ → ℚ) (chi2_1 chi2_2 : ℚ) (dof_1 dof_2 : ℤ),
      chi2_2 < chi2_1 → dof_1 ≠ dof_2 → dof_2 ≠ 0 → chi2_2 ≠ 0 →
      ∃ v : ℚ, Ftest fdtr chi2_1 dof_1 chi2_2 dof_2 = .ok (.val v)) := by
  constructor
  · intro fdtr chi2_1 chi2_2 d h
    unfold Ftest
    have hdelta : (0 : ℚ) < chi2_1 - chi2_2 := by linarith
    by_cases hd : d = 0
    · simp [hdelta, hd]
    · simp [hdelta, hd]
  · intro fdtr chi2_1 chi2_2 dof_1 dof_2 h hdd hd2 hc2
    unfold Ftest
    have hdelta : (0 : ℚ) < chi2_1 - chi2_2 := by linarith
    have hddz : ¬ dof_1 - dof_2 = 0 := by omega
    have hnr : ¬ chi2_2 / (dof_2 : ℚ) = 0 := by
      have : (dof_2 : ℚ) ≠ 0 := by exact_mod_cast hd2
      exact div_ne_zero hc2 this
    simp [hdelta, hd2, hddz, hnr]

/-- Witness for C9: the concrete failing input `(120, 50, 100, 50)` raises,
and `(120, 50, 100, 48)` reaches the numeric branch. -/
theorem c9_ftest_div_by_zero_witness :
    Ftest fdtr0 120 50 100 50 = .error "ZeroDivisionError" ∧
    ∃ v : ℚ, Ftest fdtr0 120 50 100 48 = .ok (.val v) :=
  ⟨c9_ftest_div_by_zero.1 fdtr0 120 100 50 (by norm_num),
   c9_ftest_div_by_zero.2 fdtr0 120 100 50 48 (by norm_num) (by norm_num)
     (by norm_num) (by norm_num)⟩

/-! ### Theorems: the DMX window search (C10) -/

/-- Reference walk: scan the windows in order, numbering them from `j`. -/
def scanW (v : ℚ) : List DMXWindow → ℕ → Except String (ℕ × DMXWindow)
  | [], _ => .error "AttributeError"
  | w :: ws, j =>
      if w.r1 < v ∧ v < w.r2 then .ok (j, w) else scanW v ws (j + 1)

theorem enumFrom_length (ws : List DMXWindow) : ∀ k, (enumFrom k ws).length = ws.length := by
  induction ws with
  | nil => intro k; rfl
  | cons w ws ih => intro k; simp [enumFrom, ih]

theorem lookupDMX_enumFrom (ws : List DMXWindow) :
    ∀ k i, lookupDMX (enumFrom k ws) i =
      if k ≤ i then ws.get? (i - k) else none := by
  induction ws with
  | nil =>
      intro k i
      simp [enumFrom, lookupDMX, List.find?]
  | cons w ws ih =>
      intro k i
      by_cases hki : k = i
      · subst hki
        simp [enumFrom, lookupDMX, List.find?]
      · have step : lookupDMX (enumFrom k (w :: ws)) i =
            lookupDMX (enumFrom (k + 1) ws) i := by
          simp [enumFrom, lookupDMX, List.find?, hki]
        rw [step, ih]
        by_cases hle : k ≤ i
        · have h1 : k + 1 ≤ i := by omega
          have h2 : i - k = (i - (k + 1)) + 1 := by omega
          simp [hle, h1, h2, List.get?]
        · have h1 : ¬ k + 1 ≤ i := by omega
          simp [hle, h1]

theorem findDMXGo_eq_scanW (v : ℚ) (ws : List DMXWindow) :
    ∀ (fuel k : ℕ), ws.length - k < fuel →
      findDMXGo (enumFrom 1 ws) v fuel (k + 1) = scanW v (ws.drop k) (k + 1) := by
  intro fuel
  induction fuel with
  | zero => intro k h; omega
  | succ fuel ih =>
      intro k h
      have hlk : lookupDMX (enumFrom 1 ws) (k + 1) = ws.get? k := by
        rw [lookupDMX_enumFrom]
        simp
      cases hk : ws.get? k with
      | none =>
          have hlen : ws.length ≤ k := List.get?_eq_none.mp hk
          have hdrop : ws.drop k = [] := List.drop_eq_nil_of_le hlen
          rw [hdrop]
          unfold findDMXGo
          rw [hlk, hk]
          rfl
      | some w =>
          have hklt : k < ws.length := by
            by_contra hc
            push_neg at hc
            rw [List.get?_eq_none.mpr hc] at hk
            exact absurd hk (by simp)
          have hdrop : ws.drop k = w :: ws.drop (k + 1) := by
            rw [List.drop_eq_get_cons hklt]
            have : ws.get ⟨k, hklt⟩ = w := by
              have := List.get?_eq_get hklt
              rw [this] at hk
              exact Option.some.inj hk
            rw [this]
          rw [hdrop]
          unfold findDMXGo
          rw [hlk, hk]
          by_cases hin : w.r1 < v ∧ v < w.r2
          · simp only [scanW, if_pos hin]
          · simp only [scanW, if_neg hin]
            exact ih (k + 1) (by omega)

theorem findDMX_eq_scanW (ws : List DMXWindow) (v : ℚ) :
    findDMX (enumFrom 1 ws) v = scanW v ws 1 := by
  unfold findDMX
  rw [enumFrom_length]
  have := findDMXGo_eq_scanW v ws (ws.length + 1) 0 (by omega)
  simpa using this

theorem scanW_error (v : ℚ) :
    ∀ (ws : List DMXWindow) (j : ℕ), (∀ w ∈ ws, ¬ (w.r1 < v ∧ v < w.r2)) →
      scanW v ws j = .error "AttributeError" := by
  intro ws
  induction ws with
  | nil => intro j _; rfl
  | cons w ws ih =>
      intro j h
      have hw := h w (by simp)
      simp only [scanW, if_neg hw]
      exact ih (j + 1) (fun w' hw' => h w' (by simp [hw']))

theorem scanW_ok (v : ℚ) :
    ∀ (ws : List DMXWindow) (j i : ℕ) (w : DMXWindow),
      scanW v ws j = .ok (i, w) →
      (w.r1 < v ∧ v < w.r2) ∧ ∃ k, ws.get? k = some w ∧ i = j + k := by
  intro ws
  induction ws with
  | nil => intro j i w h; exact absurd h (by simp [scanW])
  | cons w0 ws ih =>
      intro j i w h
      by_cases hin : w0.r1 < v ∧ v < w0.r2
      · simp only [scanW, if_pos hin] at h
        obtain ⟨h1, h2⟩ := Prod.mk.injEq .. ▸ (Except.ok.inj h)
        subst h1; subst h2
        exact ⟨hin, 0, by simp⟩
      · simp only [scanW, if_neg hin] at h
        obtain ⟨hiw, k, hk, hik⟩ := ih (j + 1) i w h
        exact ⟨hiw, k + 1, by simpa using hk, by omega⟩

theorem scanW_found (v : ℚ) :
    ∀ (ws : List DMXWindow) (j : ℕ), (∃ w ∈ ws, w.r1 < v ∧ v < w.r2) →
      ∃ i w, scanW v ws j = .ok (i, w) := by
  intro ws
  induction ws with
  | nil => intro j h; simp at h
  | cons w0 ws ih =>
      intro j h
      by_cases hin : w0.r1 < v ∧ v < w0.r2
      · exact ⟨j, w0, by simp [scanW, hin]⟩
      · obtain ⟨w, hw, hwin⟩ := h
        rcases List.mem_cons.mp hw with rfl | hmem
        · exact absurd hwin hin
        · obtain ⟨i, w', h'⟩ := ih (j + 1) ⟨w, hmem, hwin⟩
          exact ⟨i, w', by simp [scanW, hin, h']⟩

/-- Claim C10: on a model whose DMX windows are contiguously indexed
`1..n` (as `setup_dmx` produces), the `while dmxindex == None` search for the
epoch's first TOA value `v`:
* returns normally only with a window strictly containing `v`, whose indexed
  parameters exist (the dynamic `getattr` lookups never fail);
* succeeds whenever some window strictly contains `v`;
* for `v` outside every window (for example exactly on a window boundary) it
  increments the index past the last existing window and raises
  `AttributeError`. -/
theorem c10_dmx_search (ws : List DMXWindow) (v : ℚ) :
    (∀ i w, findDMX (Model.ofWindows ws).dmx v = .ok (i, w) →
      (w.r1 < v ∧ v < w.r2) ∧ lookupDMX (Model.ofWindows ws).dmx i = some w) ∧
    ((∃ w ∈ ws, w.r1 < v ∧ v < w.r2) →
      ∃ i w, findDMX (Model.ofWindows ws).dmx v = .ok (i, w)) ∧
    ((∀ w ∈ ws, ¬ (w.r1 < v ∧ v < w.r2)) →
      findDMX (Model.ofWindows ws).dmx v = .error "AttributeError") := by
  have heq : findDMX (Model.ofWindows ws).dmx v = scanW v ws 1 :=
    findDMX_eq_scanW ws v
  refine ⟨?_, ?_, ?_⟩
  · intro i w h
    rw [heq] at h
    obtain ⟨hin, k, hk, hik⟩ := scanW_ok v ws 1 i w h
    refine ⟨hin, ?_⟩
    show lookupDMX (enumFrom 1 ws) i = some w
    rw [lookupDMX_enumFrom]
    have h1 : 1 ≤ i := by omega
    have hik' : i - 1 = k := by omega
    rw [if_pos h1, hik']
    exact hk
  · intro h
    rw [heq]
    exact scanW_found v ws 1 h
  · intro h
    rw [heq]
    exact scanW_error v ws 1 h

/-- Witness for C10: with windows `(0,10), (10,20)`, the value `5` is found
in window `1`, and the boundary value `10` (inside no window strictly) makes
the lookup raise. -/
theorem c10_dmx_search_witness :
    (∃ i w, findDMX (Model.ofWindows [exW1, exW2]).dmx 5 = .ok (i, w)) ∧
    findDMX (Model.ofWindows [exW1, exW2]).dmx 10 = .error "AttributeError" :=
  ⟨(c10_dmx_search [exW1, exW2] 5).2.1
      ⟨exW1, by simp, by unfold exW1; norm_num⟩,
   (c10_dmx_search [exW1, exW2] 10).2.2 (by decide)⟩

/-! ### Structure of the epoch loop -/

theorem select_unselect (ts : TOAs) (mask : List Bool) :
    (ts.select mask).unselect = ts := by
  cases ts; rfl

/-- Characterization of a successful iteration of the epoch loop: the gather
pass succeeded, the DMX window of the epoch's first TOA was found, the model
either loses exactly that window (when no remaining TOA lies strictly inside
it) or is used unchanged, the F-test is taken only when the dof changed, the
drop decision is the Python comparison `ftest < ftest_threshold` (sentinel
`False` counting as `0`), and `unselect` restores the TOA object exactly. -/
theorem epochStep_ok_spec (fdtr : ℚ → ℚ → ℚ → ℚ) (fitO : Model → List TOA → ℚ)
    (dofO : Model → List TOA → ℤ) (model : Model) (chi2_init : ℚ)
    (ndof_init : ℤ) (ntoas_init : ℕ) (th : ℚ) (toas : TOAs)
    (filename : Option FlagVal) (out : EpochStepOut)
    (h : epochStep fdtr fitO dofO model chi2_init ndof_init ntoas_init th
      toas filename = .ok out) :
    ∃ g dw mjd ft,
      gatherEpoch model.dmx filename toas.table Gather.init = .ok g ∧
      g.dmxfound = some dw ∧ g.mjd = some mjd ∧
      out.newmodel = (if ((toas.select g.mask).table.filter
          (fun t => decide (dw.2.r1 < t.mjd ∧ t.mjd < dw.2.r2))).length = 0
        then model.removeDMX dw.1 else model) ∧
      out.chi2 = fitO out.newmodel (toas.select g.mask).table ∧
      out.ndof = dofO out.newmodel (toas.select g.mask).table ∧
      out.ndof ≠ 0 ∧
      out.ntoas = (toas.select g.mask).ntoas ∧
      ((ndof_init ≠ out.ndof ∧
          Ftest fdtr chi2_init ndof_init out.chi2 out.ndof = .ok ft) ∨
        (ndof_init = out.ndof ∧ ft = .sentinel)) ∧
      out.filename = filename ∧
      out.line = ⟨filename, g.receiver, mjd, (ntoas_init : ℤ) - (out.ntoas : ℤ),
        ft, pyFormatEFtest ft, g.sum⟩ ∧
      out.drop = decide (ndof_init ≠ out.ndof ∧ ftestVal ft < th) ∧
      out.toasAfter = toas := by
  unfold epochStep at h
  cases hg : gatherEpoch model.dmx filename toas.table Gather.init with
  | error s => rw [hg] at h; exact absurd h (by simp [Bind.bind, Except.bind])
  | ok g =>
      rw [hg] at h
      simp only [Bind.bind, Except.bind] at h
      cases hdw : g.dmxfound with
      | none => rw [hdw] at h; exact absurd h (by simp)
      | some dw =>
          rw [hdw] at h
          simp only [Pure.pure, Except.pure] at h
          refine ⟨g, dw, ?_⟩
          set nm : Model := if ((toas.select g.mask).table.filter
              (fun t => decide (dw.2.r1 < t.mjd ∧ t.mjd < dw.2.r2))).length = 0
            then model.removeDMX dw.1 else model with hnm
          split at h
          · exact absurd h (by simp)
          · rename_i hndof
            split at h
            · rename_i hne
              cases hft : Ftest fdtr chi2_init ndof_init
                  (fitO nm (toas.select g.mask).table)
                  (dofO nm (toas.select g.mask).table) with
              | error s =>
                  rw [hft] at h
                  exact absurd h (by simp [Except.bind])
              | ok ft =>
                  rw [hft] at h
                  simp only [Except.bind] at h
                  cases hm : g.mjd with
                  | none => rw [hm] at h; exact absurd h (by simp)
                  | some mjd =>
                      rw [hm] at h
                      simp only [Except.ok.injEq] at h
                      subst h
                      refine ⟨mjd, ft, rfl, hdw, rfl, rfl, rfl, rfl, hndof, rfl,
                        Or.inl ⟨hne, hft⟩, rfl, rfl, ?_, select_unselect ..⟩
                      simp [hne]
            · rename_i hne
              cases hm : g.mjd with
              | none => rw [hm] at h; exact absurd h (by simp)
              | some mjd =>
                  rw [hm] at h
                  simp only [Except.ok.injEq] at h
                  subst h
                  push_neg at hne
                  refine ⟨mjd, .sentinel, rfl, hdw, rfl, rfl, rfl, rfl, hndof, rfl,
                    Or.inr ⟨hne, rfl⟩, rfl, rfl, ?_, select_unselect ..⟩
                  simp [hne]

theorem epochStep_restores (fdtr : ℚ → ℚ → ℚ → ℚ) (fitO : Model → List TOA → ℚ)
    (dofO : Model → List TOA → ℤ) (model : Model) (chi2_init : ℚ)
    (ndof_init : ℤ) (ntoas_init : ℕ) (th : ℚ) (toas : TOAs)
    (filename : Option FlagVal) (out : EpochStepOut)
    (h : epochStep fdtr fitO dofO model chi2_init ndof_init ntoas_init th
      toas filename = .ok out) : out.toasAfter = toas := by
  obtain ⟨g, dw, mjd, ft, -, -, -, -, -, -, -, -, -, -, -, -, hr⟩ :=
    epochStep_ok_spec fdtr fitO dofO model chi2_init ndof_init ntoas_init th
      toas filename out h
  exact hr

theorem runEpochs_eq_mapM (fdtr : ℚ → ℚ → ℚ → ℚ) (fitO : Model → List TOA → ℚ)
    (dofO : Model → List TOA → ℤ) (model : Model) (chi2_init : ℚ)
    (ndof_init : ℤ) (ntoas_init : ℕ) (th : ℚ) :
    ∀ (es : List (Option FlagVal)) (ts : TOAs),
      runEpochs fdtr fitO dofO model chi2_init ndof_init ntoas_init th es ts =
        (es.mapM (epochStep fdtr fitO dofO model chi2_init ndof_init ntoas_init
          th ts)).map (fun outs => (outs, ts)) := by
  intro es
  induction es with
  | nil => intro ts; rfl
  | cons e es ih =>
      intro ts
      rw [runEpochs, List.mapM_cons]
      cases hstep : epochStep fdtr fitO dofO model chi2_init ndof_init
          ntoas_init th ts e with
      | error s => simp [hstep, Bind.bind, Except.bind, Except.map]
      | ok out =>
          have hr : out.toasAfter = ts :=
            epochStep_restores fdtr fitO dofO model chi2_init ndof_init
              ntoas_init th ts e out hstep
          simp only [hstep, Bind.bind, Except.bind, hr, ih ts]
          cases hm : es.mapM (epochStep fdtr fitO dofO model chi2_init
              ndof_init ntoas_init th ts) with
          | error s => simp [Except.map, Except.bind]
          | ok l => simp [Except.map, Except.bind, Pure.pure, Except.pure]

/-- Claim C4: each iteration of the epoch-excision loop is evaluated
independently against the original state.  (1) Every successful iteration
returns the TOA object exactly as it received it (`select` followed by
`unselect`; same table, selection and flag contents).  (2) Consequently the
whole loop equals the independent map of the per-epoch evaluation over the
*same* initial TOA set (and the same unmodified `model` argument, which the
loop threads unchanged — the DMX removal acts on `copy.deepcopy(model)`
only). -/
theorem c4_independent_iterations (fdtr : ℚ → ℚ → ℚ → ℚ)
    (fitO : Model → List TOA → ℚ) (dofO : Model → List TOA → ℤ)
    (model : Model) (chi2_init : ℚ) (ndof_init : ℤ) (ntoas_init : ℕ)
    (th : ℚ) :
    (∀ (ts : TOAs) (e : Option FlagVal),
      (epochStep fdtr fitO dofO model chi2_init ndof_init ntoas_init th
          ts e).map (·.toasAfter) =
        (epochStep fdtr fitO dofO model chi2_init ndof_init ntoas_init th
          ts e).map (fun _ => ts)) ∧
    (∀ (es : List (Option FlagVal)) (ts : TOAs),
      runEpochs fdtr fitO dofO model chi2_init ndof_init ntoas_init th es ts =
        (es.mapM (epochStep fdtr fitO dofO model chi2_init ndof_init
          ntoas_init th ts)).map (fun outs => (outs, ts))) := by
  constructor
  · intro ts e
    cases hstep : epochStep fdtr fitO dofO model chi2_init ndof_init
        ntoas_init th ts e with
    | error s => rfl
    | ok out =>
        simp [Except.map,
          epochStep_restores fdtr fitO dofO model chi2_init ndof_init
            ntoas_init th ts e out hstep]
  · exact runEpochs_eq_mapM fdtr fitO dofO model chi2_init ndof_init
      ntoas_init th

/-- Claim C1 (amended): in the excision loop an epoch is recorded "to drop"
iff its refit changed the dof *and* the Python comparison
`ftest < ftest_threshold` holds, where the sentinel `False` compares as the
number `0` — so an epoch whose F-test is the sentinel (chi² did not improve)
is also dropped whenever the threshold is positive.  An epoch whose numeric
F-test value is at or above the threshold is never dropped. -/
theorem c1_epochdrop_rule (fdtr : ℚ → ℚ → ℚ → ℚ)
    (fitO : Model → List TOA → ℚ) (dofO : Model → List TOA → ℤ)
    (model : Model) (chi2_init : ℚ) (ndof_init : ℤ) (ntoas_init : ℕ)
    (th : ℚ) (ts : TOAs) (e : Option FlagVal) :
    (epochStep fdtr fitO dofO model chi2_init ndof_init ntoas_init th
        ts e).map (·.drop) =
      (epochStep fdtr fitO dofO model chi2_init ndof_init ntoas_init th
        ts e).map
          (fun o => decide (ndof_init ≠ o.ndof ∧ ftestVal o.line.ftest < th)) ∧
    ftestVal FtestResult.sentinel = 0 := by
  refine ⟨?_, rfl⟩
  cases hstep : epochStep fdtr fitO dofO model chi2_init ndof_init ntoas_init
      th ts e with
  | error s => rfl
  | ok out =>
      obtain ⟨g, dw, mjd, ft, -, -, -, -, -, -, -, -, -, -, hline, hdrop, -⟩ :=
        epochStep_ok_spec fdtr fitO dofO model chi2_init ndof_init ntoas_init
          th ts e out hstep
      have hft : out.line.ftest = ft := by rw [hline]
      simp [Except.map, hdrop, hft]

/-- Counterexample to claim C1 as stated: in the concrete run `exRun`
(threshold `1.0e-6`), the dof of epoch `"a"`'s refit changes and its F-test
is the *sentinel* (chi² got worse, so there is no numeric F-test value below
the threshold), yet the epoch is recorded to drop — because Python evaluates
`False < 1.0e-6` as `0 < 1.0e-6`. -/
theorem c1_epochdrop_cex :
    exRun.map (fun o => (o.epochs_to_drop, o.lines.map (·.ftest))) =
      .ok ([some (.str "a")], [.sentinel, .sentinel]) := by
  with_unfolding_all rfl

/-- A successful `epochalyptica` run decomposes into a successful independent
per-epoch map (over the restored-in-place TOA set) followed by the pure
post-processing `epochPost`. -/
theorem epochalyptica_ok_spec (fdtr : ℚ → ℚ → ℚ → ℚ)
    (fitO : Model → List TOA → ℚ) (dofO : Model → List TOA → ℤ)
    (setupDmx : Model → TOAs → Model × TOAs) (model : Model) (toas : TOAs)
    (th : ℚ) (out : EpochOut)
    (h : epochalyptica fdtr fitO dofO setupDmx model toas th = .ok out) :
    dofO model toas.table ≠ 0 ∧
    ∃ steps, (pyset (toas.table.map (fun t => getFlag t "name"))).mapM
        (epochStep fdtr fitO dofO model (fitO model toas.table)
          (dofO model toas.table) toas.ntoas th toas) = .ok steps ∧
      out = epochPost setupDmx model (fitO model toas.table)
        (dofO model toas.table) toas.ntoas steps toas := by
  unfold epochalyptica at h
  split at h
  · exact absurd h (by simp)
  · rename_i hne
    rw [runEpochs_eq_mapM] at h
    cases hm : (pyset (toas.table.map (fun t => getFlag t "name"))).mapM
        (epochStep fdtr fitO dofO model (fitO model toas.table)
          (dofO model toas.table) toas.ntoas th toas) with
    | error s => rw [hm] at h; exact absurd h (by simp [Except.map])
    | ok steps =>
        rw [hm] at h
        simp only [Except.map, Except.ok.injEq] at h
        exact ⟨hne, steps, rfl, h.symm⟩

/-- Claim C6: when the loop records no epochs to drop, no cut is applied and
`setup_dmx` is not rerun — the excise tim file is written from the original
model and the restored full TOA set, and the informational message is
logged; when at least one epoch is dropped, cuts are applied and `setup_dmx`
is rerun before writing. -/
theorem c6_no_drop_branch (fdtr : ℚ → ℚ → ℚ → ℚ)
    (fitO : Model → List TOA → ℚ) (dofO : Model → List TOA → ℤ)
    (setupDmx : Model → TOAs → Model × TOAs) (model : Model) (toas : TOAs)
    (th : ℚ) (out : EpochOut)
    (h : epochalyptica fdtr fitO dofO setupDmx model toas th = .ok out) :
    (out.epochs_to_drop = [] →
      out.cutsApplied = false ∧ out.dmxRerun = false ∧
      out.writtenModel = model ∧ out.writtenToas = toas.restoreFull ∧
      out.logs = ["No epochs dropped (epochalyptica)."]) ∧
    (out.epochs_to_drop ≠ [] →
      out.cutsApplied = true ∧ out.dmxRerun = true ∧ out.logs = []) := by
  obtain ⟨-, steps, -, hout⟩ :=
    epochalyptica_ok_spec fdtr fitO dofO setupDmx model toas th out h
  subst hout
  by_cases hD0 : (steps.filter (·.drop)).map (·.filename) = []
  · have hfil : steps.filter (·.drop) = [] := by simpa using hD0
    have hnex : ¬ ∃ x ∈ steps, x.drop = true := by
      rintro ⟨x, hx, hdx⟩
      have : x ∈ ([] : List EpochStepOut) :=
        hfil ▸ List.mem_filter.mpr ⟨hx, hdx⟩
      simp at this
    constructor
    · intro _
      refine ⟨?_, ?_, ?_, ?_, ?_⟩ <;> simp [epochPost, hD0, hnex]
    · intro hne
      exact absurd (by simp [epochPost, hD0, hnex]) hne
  · have hfil : steps.filter (·.drop) ≠ [] := fun hf => hD0 (by rw [hf]; rfl)
    obtain ⟨x, hx⟩ := List.exists_mem_of_ne_nil _ hfil
    have hex : ∃ x ∈ steps, x.drop = true :=
      ⟨x, (List.mem_filter.mp hx).1, (List.mem_filter.mp hx).2⟩
    have hlen : ((steps.filter (·.drop)).map (·.filename)).length ≠ 0 := by
      simpa [List.length_eq_zero] using hD0
    constructor
    · intro hnil
      exact absurd (by simpa [epochPost] using hnil) hD0
    · intro _
      refine ⟨?_, ?_, ?_⟩ <;> simp [epochPost, hex, hlen]

/-- Witness for C6: the zero-threshold run `exRun0` drops nothing and takes
the skip branch; the default-threshold run `exRun` drops epoch `"a"` and
applies cuts and the DMX re-setup. -/
theorem c6_no_drop_branch_witness :
    (exOut0.cutsApplied = false ∧ exOut0.dmxRerun = false ∧
      exOut0.writtenModel = exModel ∧ exOut0.writtenToas = exToas.restoreFull ∧
      exOut0.logs = ["No epochs dropped (epochalyptica)."]) ∧
    (exOut.cutsApplied = true ∧ exOut.dmxRerun = true ∧ exOut.logs = []) :=
  ⟨(c6_no_drop_branch fdtr0 exFit exDof exSetup exModel exToas 0 exOut0
      (by with_unfolding_all rfl)).1 (by with_unfolding_all rfl),
   (c6_no_drop_branch fdtr0 exFit exDof exSetup exModel exToas (1 / 1000000)
      exOut (by with_unfolding_all rfl)).2 (by
        rw [(by with_unfolding_all rfl :
          exOut.epochs_to_drop = [some (.str "a")])]
        simp)⟩

/-! ### The gather pass, characterized -/

theorem gatherEpoch_mask_sum (dmx : List (ℕ × DMXWindow)) (fn : Option FlagVal) :
    ∀ (l : List TOA) (g g' : Gather), gatherEpoch dmx fn l g = .ok g' →
      g'.mask = g.mask ++ l.map (fun t => !(nameMatches fn t)) ∧
      g'.sum = g.sum + ((l.filter (fun t => nameMatches fn t)).map
        (fun t => 1 / t.err ^ 2)).sum := by
  intro l
  induction l with
  | nil =>
      intro g g' h
      simp only [gatherEpoch, Except.ok.injEq] at h
      subst h
      simp
  | cons t rest ih =>
      intro g g' h
      by_cases hm : nameMatches fn t
      · simp only [gatherEpoch, if_pos hm, Bind.bind, Except.bind] at h
        by_cases htv : g.toaval = none
        · rw [if_pos htv] at h
          cases hfd : findDMX dmx t.mjd with
          | error s => rw [hfd] at h; exact absurd h (by simp [Except.map])
          | ok dw =>
              rw [hfd] at h
              simp only [Except.map] at h
              split at h
              · exact absurd h (by simp)
              · obtain ⟨hmask, hsum⟩ := ih _ _ h
                exact ⟨by rw [hmask]; simp [hm],
                  by rw [hsum]; simp [hm]; ring⟩
        · rw [if_neg htv] at h
          simp only [Pure.pure, Except.pure] at h
          split at h
          · exact absurd h (by simp)
          · obtain ⟨hmask, hsum⟩ := ih _ _ h
            exact ⟨by rw [hmask]; simp [hm],
              by rw [hsum]; simp [hm]; ring⟩
      · simp only [gatherEpoch, if_neg hm] at h
        obtain ⟨hmask, hsum⟩ := ih _ _ h
        constructor
        · rw [hmask]
          simp [Bool.not_eq_true] at hm
          simp [hm]
        · rw [hsum]
          simp [Bool.not_eq_true] at hm
          simp [hm]

theorem gatherEpoch_stable (dmx : List (ℕ × DMXWindow)) (fn : Option FlagVal) :
    ∀ (l : List TOA) (g g' : Gather), gatherEpoch dmx fn l g = .ok g' →
      g.toaval.isSome → g.receiver.isSome → g.mjd.isSome →
      g'.receiver = g.receiver ∧ g'.mjd = g.mjd ∧ g'.toaval = g.toaval ∧
        g'.dmxfound = g.dmxfound := by
  intro l
  induction l with
  | nil =>
      intro g g' h _ _ _
      simp only [gatherEpoch, Except.ok.injEq] at h
      subst h
      exact ⟨rfl, rfl, rfl, rfl⟩
  | cons t rest ih =>
      intro g g' h htv hrc hmj
      by_cases hm : nameMatches fn t
      · simp only [gatherEpoch, if_pos hm, Bind.bind, Except.bind] at h
        have hrne : ¬ g.receiver = none := by
          cases hr : g.receiver
          · rw [hr] at hrc; exact absurd hrc (by simp)
          · simp
        have hmne : ¬ g.mjd = none := by
          cases hr : g.mjd
          · rw [hr] at hmj; exact absurd hmj (by simp)
          · simp
        have htne : ¬ g.toaval = none := by
          cases hr : g.toaval
          · rw [hr] at htv; exact absurd htv (by simp)
          · simp
        rw [if_neg htne, if_neg hrne, if_neg hmne] at h
        simp only [Pure.pure, Except.pure] at h
        split at h
        · exact absurd h (by simp)
        · have := ih _ _ h (by simpa using htv) (by simpa using hrc)
            (by simpa using hmj)
          simpa using this
      · simp only [gatherEpoch, if_neg hm] at h
        have := ih _ _ h (by simpa using htv) (by simpa using hrc)
          (by simpa using hmj)
        simpa using this

theorem gatherEpoch_first (dmx : List (ℕ × DMXWindow)) (fn : Option FlagVal) :
    ∀ (l : List TOA) (g g' : Gather), gatherEpoch dmx fn l g = .ok g' →
      g.toaval = none → g.receiver = none → g.mjd = none → g.dmxfound = none →
      (∀ t ∈ l, nameMatches fn t = true → (getFlag t "f").isSome) →
      (l.filter (fun t => nameMatches fn t) = [] ∧ g'.receiver = none ∧
        g'.mjd = none ∧ g'.dmxfound = none) ∨
      (∃ t0 rest' dw, l.filter (fun t => nameMatches fn t) = t0 :: rest' ∧
        findDMX dmx t0.mjd = .ok dw ∧ g'.receiver = getFlag t0 "f" ∧
        g'.mjd = some (pyInt t0.mjd1) ∧ g'.dmxfound = some dw) := by
  intro l
  induction l with
  | nil =>
      intro g g' h htv hrc hmj hdx _
      simp only [gatherEpoch, Except.ok.injEq] at h
      subst h
      exact Or.inl ⟨rfl, hrc, hmj, hdx⟩
  | cons t rest ih =>
      intro g g' h htv hrc hmj hdx hwf
      by_cases hm : nameMatches fn t
      · simp only [gatherEpoch, if_pos hm, Bind.bind, Except.bind] at h
        rw [if_pos htv, if_pos hrc, if_pos hmj] at h
        cases hfd : findDMX dmx t.mjd with
        | error s => rw [hfd] at h; exact absurd h (by simp [Except.map])
        | ok dw =>
            rw [hfd] at h
            simp only [Except.map] at h
            split at h
            · exact absurd h (by simp)
            · have hst := gatherEpoch_stable dmx fn rest _ _ h
                (by simp) (by simpa using hwf t (by simp) hm) (by simp)
              refine Or.inr ⟨t, rest.filter (fun t => nameMatches fn t), dw,
                by simp [hm], hfd, ?_, ?_, ?_⟩
              · exact hst.1
              · exact hst.2.1
              · exact hst.2.2.2
      · simp only [gatherEpoch, if_neg hm] at h
        have := ih _ _ h htv hrc hmj hdx
          (fun t' ht' => hwf t' (by simp [ht']))
        simpa [hm] using this

/-! ### Select with a table-derived mask -/

theorem select_table_filter_aux (orig : List TOA) (p : TOA → Bool) :
    ∀ sel : List ℕ, (∀ i ∈ sel, i < orig.length) →
      ((sel.zip ((sel.filterMap (fun i => orig.get? i)).map p)).filterMap
          (fun q => if q.2 then some q.1 else none)).filterMap
        (fun i => orig.get? i) =
      (sel.filterMap (fun i => orig.get? i)).filter p := by
  intro sel
  induction sel with
  | nil => intro _; rfl
  | cons i rest ih =>
      intro hv
      have hi : i < orig.length := hv i (by simp)
      obtain ⟨t, ht⟩ : ∃ t, orig.get? i = some t :=
        ⟨orig.get ⟨i, hi⟩, List.get?_eq_get hi⟩
      have hrest := ih (fun j hj => hv j (by simp [hj]))
      have tb : List.filterMap (fun j => orig.get? j) (i :: rest) =
          t :: List.filterMap (fun j => orig.get? j) rest := by
        rw [List.filterMap_cons, ht]
      rw [tb, List.map_cons, List.zip_cons_cons]
      cases hp : p t
      · have z1 : List.filterMap
            (fun q : ℕ × Bool => if q.2 then some q.1 else none)
            ((i, false) :: rest.zip (List.map p
              (List.filterMap (fun j => orig.get? j) rest))) =
            List.filterMap (fun q : ℕ × Bool => if q.2 then some q.1 else none)
              (rest.zip (List.map p
                (List.filterMap (fun j => orig.get? j) rest))) := rfl
        rw [z1, hrest, List.filter_cons, hp]
        simp
      · have z1 : List.filterMap
            (fun q : ℕ × Bool => if q.2 then some q.1 else none)
            ((i, true) :: rest.zip (List.map p
              (List.filterMap (fun j => orig.get? j) rest))) =
            i :: List.filterMap
              (fun q : ℕ × Bool => if q.2 then some q.1 else none)
              (rest.zip (List.map p
                (List.filterMap (fun j => orig.get? j) rest))) := rfl
        rw [z1]
        have tb2 : List.filterMap (fun j => orig.get? j)
            (i :: List.filterMap
              (fun q : ℕ × Bool => if q.2 then some q.1 else none)
              (rest.zip (List.map p
                (List.filterMap (fun j => orig.get? j) rest)))) =
            t :: List.filterMap (fun j => orig.get? j)
              (List.filterMap
                (fun q : ℕ × Bool => if q.2 then some q.1 else none)
                (rest.zip (List.map p
                  (List.filterMap (fun j => orig.get? j) rest)))) := by
          rw [List.filterMap_cons, ht]
        rw [tb2, hrest, List.filter_cons, hp]
        simp

/-- Selecting with the mask `table.map p` leaves exactly the rows of the
current table satisfying `p`. -/
theorem select_table_filter (ts : TOAs) (p : TOA → Bool)
    (hv : ∀ i ∈ ts.sel, i < ts.orig_table.length) :
    (ts.select (ts.table.map p)).table = ts.table.filter p :=
  select_table_filter_aux ts.orig_table p ts.sel hv

/-- `findDMXGo` only succeeds with a strictly containing window whose indexed
parameters exist. -/
theorem findDMXGo_ok (dmx : List (ℕ × DMXWindow)) (v : ℚ) :
    ∀ (fuel j i : ℕ) (w : DMXWindow), findDMXGo dmx v fuel j = .ok (i, w) →
      (w.r1 < v ∧ v < w.r2) ∧ lookupDMX dmx i = some w := by
  intro fuel
  induction fuel with
  | zero => intro j i w h; exact absurd h (by simp [findDMXGo])
  | succ fuel ih =>
      intro j i w h
      rw [show findDMXGo dmx v (fuel + 1) j =
          (match lookupDMX dmx j with
           | none => .error "AttributeError"
           | some w =>
               if w.r1 < v ∧ v < w.r2 then .ok (j, w)
               else findDMXGo dmx v fuel (j + 1)) from rfl] at h
      cases hlk : lookupDMX dmx j with
      | none => rw [hlk] at h; exact absurd h (by simp)
      | some w0 =>
          rw [hlk] at h
          have h' : (if w0.r1 < v ∧ v < w0.r2 then Except.ok (j, w0)
              else findDMXGo dmx v fuel (j + 1)) = Except.ok (i, w) := h
          by_cases hin : w0.r1 < v ∧ v < w0.r2
          · rw [if_pos hin] at h'
            obtain ⟨h1, h2⟩ := Prod.mk.injEq .. ▸ (Except.ok.inj h')
            subst h1; subst h2
            exact ⟨hin, hlk⟩
          · rw [if_neg hin] at h'
            exact ih (j + 1) i w h'

theorem findDMX_ok (dmx : List (ℕ × DMXWindow)) (v : ℚ) (i : ℕ)
    (w : DMXWindow) (h : findDMX dmx v = .ok (i, w)) :
    (w.r1 < v ∧ v < w.r2) ∧ lookupDMX dmx i = some w :=
  findDMXGo_ok dmx v (dmx.length + 1) 1 i w h

/-! ### Claim C5: the DMX-window removal condition -/

/-- Claim C5 (amended): in an epoch iteration, a DMX window's three
parameters are removed from the fitted model iff the window strictly
containing the *first* TOA of the epoch (in table order) has no remaining
TOA strictly inside it after the epoch is masked out; the source does not
require the whole epoch to fall inside that window. -/
theorem c5_dmx_removal (fdtr : ℚ → ℚ → ℚ → ℚ) (fitO : Model → List TOA → ℚ)
    (dofO : Model → List TOA → ℤ) (model : Model) (chi2_init : ℚ)
    (ndof_init : ℤ) (ntoas_init : ℕ) (th : ℚ) (ts : TOAs)
    (e : Option FlagVal) (out : EpochStepOut)
    (h : epochStep fdtr fitO dofO model chi2_init ndof_init ntoas_init th
      ts e = .ok out)
    (hv : ∀ i ∈ ts.sel, i < ts.orig_table.length)
    (hwf : ∀ t ∈ ts.table, nameMatches e t = true → (getFlag t "f").isSome)
    (t0 : TOA) (rest : List TOA)
    (hfil : ts.table.filter (fun t => nameMatches e t) = t0 :: rest)
    (i : ℕ) (w : DMXWindow) (hfind : findDMX model.dmx t0.mjd = .ok (i, w)) :
    out.newmodel =
      (if ((ts.table.filter (fun t => !(nameMatches e t))).filter
          (fun t => decide (w.r1 < t.mjd ∧ t.mjd < w.r2))).length = 0
        then model.removeDMX i else model) ∧
    (w.r1 < t0.mjd ∧ t0.mjd < w.r2) := by
  obtain ⟨g, dw, mjd, ft, hg, hdw, -, hnm, -, -, -, -, -, -, -, -, -⟩ :=
    epochStep_ok_spec fdtr fitO dofO model chi2_init ndof_init ntoas_init th
      ts e out h
  obtain ⟨hmask, -⟩ :=
    gatherEpoch_mask_sum model.dmx e ts.table Gather.init g hg
  rcases gatherEpoch_first model.dmx e ts.table Gather.init g hg rfl rfl rfl
      rfl hwf with
    ⟨hnil, -, -, -⟩ | ⟨t0', rest', dw', hfil', hfind', -, -, hdw'⟩
  · rw [hfil] at hnil
    exact absurd hnil (by simp)
  · rw [hfil] at hfil'
    injection hfil' with ht0 hrest
    subst ht0
    rw [hfind] at hfind'
    have hdwe : dw' = (i, w) := (Except.ok.inj hfind').symm
    have hdw2 : dw = dw' := by
      rw [hdw] at hdw'
      exact Option.some.inj hdw'
    have hmask' : g.mask = ts.table.map (fun t => !(nameMatches e t)) := by
      simpa [Gather.init] using hmask
    refine ⟨?_, (findDMX_ok model.dmx t0.mjd i w hfind).1⟩
    rw [hnm, hmask', select_table_filter ts _ hv, hdw2, hdwe]

/-- Counterexample to claim C5 as stated: the epoch `"a"` of the first
scenario has TOAs at MJD 5 and 15, so it does not fall entirely within the
window `(0,10)` that strictly contains its first TOA; yet that window's
parameters are removed (the refit model keeps only window `2`), because the
single remaining TOA (MJD 15) is not strictly inside `(0,10)`. -/
theorem c5_dmx_removal_cex :
    (epochStep fdtr0 exFit exDof exModel 7 2 3 (1 / 1000000) exToas
        (some (.str "a"))).map (·.newmodel) = .ok ⟨[(2, exW2)]⟩ ∧
    exToas.table.filter (fun t => nameMatches (some (.str "a")) t) =
      [exT1, exT2] ∧
    findDMX exModel.dmx exT1.mjd = .ok (1, exW1) ∧
    ¬ (exW1.r1 < exT2.mjd ∧ exT2.mjd < exW1.r2) :=
  ⟨by with_unfolding_all rfl, by with_unfolding_all rfl,
   by with_unfolding_all rfl, by decide⟩

/-- Witness for (amended) C5 at the second scenario's epoch `"a"`: its first
TOA lies in window `1 = (0,10)`, the remaining TOA (MJD 15) is outside it,
and the iteration indeed removes window `1`. -/
theorem c5_dmx_removal_witness :
    ex2Out.newmodel =
      (if ((ex2Toas.table.filter
            (fun t => !(nameMatches (some (.str "a")) t))).filter
          (fun t => decide (exW1.r1 < t.mjd ∧ t.mjd < exW1.r2))).length = 0
        then exModel.removeDMX 1 else exModel) ∧
    (exW1.r1 < exT1.mjd ∧ exT1.mjd < exW1.r2) :=
  c5_dmx_removal fdtr0 ex2Fit ex2Dof exModel 2 4 2 (1 / 1000000) ex2Toas
    (some (.str "a")) ex2Out (by with_unfolding_all rfl) (by decide)
    (by decide) exT1 [] (by with_unfolding_all rfl) 1 exW1
    (by with_unfolding_all rfl)

/-! ### Claim C8: the `epochdrop.txt` lines -/

theorem pyset_nodup_aux {α : Type} [DecidableEq α] :
    ∀ (l acc : List α), acc.Nodup →
      (l.foldl (fun acc x => if x ∈ acc then acc else acc ++ [x]) acc).Nodup := by
  intro l
  induction l with
  | nil => intro acc h; exact h
  | cons x rest ih =>
      intro acc h
      simp only [List.foldl_cons]
      by_cases hx : x ∈ acc
      · rw [if_pos hx]; exact ih acc h
      · rw [if_neg hx]
        refine ih _ (List.Nodup.append h (List.nodup_singleton x) ?_)
        intro a ha hb
        simp only [List.mem_singleton] at hb
        exact hx (hb ▸ ha)

theorem pyset_nodup {α : Type} [DecidableEq α] (l : List α) :
    (pyset l).Nodup :=
  pyset_nodup_aux l [] List.nodup_nil

theorem pyset_mem_aux {α : Type} [DecidableEq α] :
    ∀ (l acc : List α) (x : α),
      (x ∈ l.foldl (fun acc x => if x ∈ acc then acc else acc ++ [x]) acc ↔
        x ∈ acc ∨ x ∈ l) := by
  intro l
  induction l with
  | nil => intro acc x; simp
  | cons y rest ih =>
      intro acc x
      simp only [List.foldl_cons]
      rw [ih]
      by_cases hy : y ∈ acc
      · rw [if_pos hy]
        constructor
        · rintro (hx | hx)
          · exact Or.inl hx
          · exact Or.inr (by simp [hx])
        · rintro (hx | hx)
          · exact Or.inl hx
          · rcases List.mem_cons.mp hx with rfl | hx'
            · exact Or.inl hy
            · exact Or.inr hx'
      · rw [if_neg hy]
        constructor
        · rintro (hx | hx)
          · rcases List.mem_append.mp hx with hx' | hx'
            · exact Or.inl hx'
            · simp only [List.mem_singleton] at hx'
              exact Or.inr (by simp [hx'])
          · exact Or.inr (by simp [hx])
        · rintro (hx | hx)
          · exact Or.inl (List.mem_append.mpr (Or.inl hx))
          · rcases List.mem_cons.mp hx with rfl | hx'
            · exact Or.inl (List.mem_append.mpr (Or.inr (by simp)))
            · exact Or.inr hx'

theorem pyset_mem {α : Type} [DecidableEq α] (l : List α) (x : α) :
    x ∈ pyset l ↔ x ∈ l := by
  have := pyset_mem_aux l [] x
  simpa [pyset] using this

theorem mapM_ok_forall₂ {α β : Type} (f : α → Except String β) :
    ∀ (es : List α) (bs : List β), es.mapM f = .ok bs →
      List.Forall₂ (fun e b => f e = .ok b) es bs := by
  intro es
  induction es with
  | nil =>
      intro bs h
      have : bs = [] := by
        rw [show ([] : List α).mapM f = pure [] from rfl] at h
        exact (Except.ok.inj h).symm
      subst this
      exact List.Forall₂.nil
  | cons e es ih =>
      intro bs h
      rw [List.mapM_cons] at h
      cases hf : f e with
      | error s =>
          rw [hf] at h
          exact absurd h (by simp [Bind.bind, Except.bind])
      | ok b =>
          rw [hf] at h
          simp only [Bind.bind, Except.bind] at h
          cases hm : es.mapM f with
          | error s => rw [hm] at h; exact absurd h (by simp)
          | ok bs' =>
              rw [hm] at h
              simp only [Pure.pure, Except.pure, Except.ok.injEq] at h
              subst h
              exact List.Forall₂.cons hf (ih bs' hm)

theorem forall₂_map_eq {α β : Type} {R : α → β → Prop} {f : β → α} :
    ∀ {es : List α} {bs : List β}, List.Forall₂ R es bs →
      (∀ e b, R e b → f b = e) → bs.map f = es := by
  intro es bs h hf
  induction h with
  | nil => rfl
  | cons hr _ ih => simp [List.map_cons, hf _ _ hr, ih]

theorem forall₂_mem_right {α β : Type} {R : α → β → Prop} :
    ∀ {es : List α} {bs : List β}, List.Forall₂ R es bs →
      ∀ b ∈ bs, ∃ e ∈ es, R e b := by
  intro es bs h
  induction h with
  | nil => intro b hb; exact absurd hb (by simp)
  | cons hr ht ih =>
      intro b hb
      rcases List.mem_cons.mp hb with rfl | hb'
      · exact ⟨_, by simp, hr⟩
      · obtain ⟨e, he, hR⟩ := ih b hb'
        exact ⟨e, by simp [he], hR⟩

/-- Claim C8 (amended): `epochalyptica` writes exactly one `epochdrop.txt`
line per distinct file-name tag, in loop order; each line carries the
epoch's receiver and truncated MJD taken from its first TOA, the number of
TOAs removed (initial count minus masked count), and the sum of `1/error²`
whose reciprocal square root is the written combined uncertainty.  The
F-test field is rendered through the `e` format spec — the sentinel `False`
is an `int` `0` to that spec, so it is written as `0.000000e+00` rather than
literally; no exception is raised. -/
theorem c8_epochdrop_lines (fdtr : ℚ → ℚ → ℚ → ℚ)
    (fitO : Model → List TOA → ℚ) (dofO : Model → List TOA → ℤ)
    (setupDmx : Model → TOAs → Model × TOAs) (model : Model) (toas : TOAs)
    (th : ℚ) (out : EpochOut)
    (h : epochalyptica fdtr fitO dofO setupDmx model toas th = .ok out)
    (hv : ∀ i ∈ toas.sel, i < toas.orig_table.length)
    (hwf : ∀ t ∈ toas.table, (getFlag t "f").isSome) :
    out.lines.map (·.filename) =
      pyset (toas.table.map (fun t => getFlag t "name")) ∧
    (pyset (toas.table.map (fun t => getFlag t "name"))).Nodup ∧
    (∀ l ∈ out.lines,
      (∃ t0 rest, toas.table.filter (fun t => nameMatches l.filename t) =
          t0 :: rest ∧
        l.receiver = getFlag t0 "f" ∧ l.mjd = pyInt t0.mjd1) ∧
      l.toas_removed = (toas.ntoas : ℤ) -
        ((toas.table.filter (fun t => !(nameMatches l.filename t))).length : ℤ) ∧
      l.usum = ((toas.table.filter (fun t => nameMatches l.filename t)).map
        (fun t => 1 / t.err ^ 2)).sum ∧
      l.ftestStr = pyFormatEFtest l.ftest) ∧
    pyFormatEFtest FtestResult.sentinel = "0.000000e+00" := by
  obtain ⟨-, steps, hm, hout⟩ :=
    epochalyptica_ok_spec fdtr fitO dofO setupDmx model toas th out h
  have hF := mapM_ok_forall₂ _ _ _ hm
  have hlines : out.lines = steps.map (·.line) := by
    rw [hout]; rfl
  refine ⟨?_, pyset_nodup _, ?_, by with_unfolding_all rfl⟩
  · rw [hlines, List.map_map]
    refine forall₂_map_eq hF ?_
    intro e s hR
    obtain ⟨g, dw, mjd, ft, -, -, -, -, -, -, -, -, -, -, hline, -, -⟩ :=
      epochStep_ok_spec fdtr fitO dofO model (fitO model toas.table)
        (dofO model toas.table) toas.ntoas th toas e s hR
    show s.line.filename = e
    rw [hline]
  · intro l hl
    rw [hlines] at hl
    obtain ⟨s, hs, hsl⟩ := List.mem_map.mp hl
    obtain ⟨e, he, hR⟩ := forall₂_mem_right hF s hs
    obtain ⟨g, dw, mjd, ft, hg, hdw, hmjd, -, -, -, -, hnto, -, -, hline, -, -⟩ :=
      epochStep_ok_spec fdtr fitO dofO model (fitO model toas.table)
        (dofO model toas.table) toas.ntoas th toas e s hR
    obtain ⟨hmask, hsum⟩ :=
      gatherEpoch_mask_sum model.dmx e toas.table Gather.init g hg
    have hmask' : g.mask = toas.table.map (fun t => !(nameMatches e t)) := by
      simpa [Gather.init] using hmask
    have hsum' : g.sum = ((toas.table.filter
        (fun t => nameMatches e t)).map (fun t => 1 / t.err ^ 2)).sum := by
      simpa [Gather.init] using hsum
    have hlf : l.filename = e := by rw [← hsl, hline]
    have hnt : s.ntoas =
        (toas.table.filter (fun t => !(nameMatches e t))).length := by
      rw [hnto]
      show (toas.select g.mask).table.length = _
      rw [hmask', select_table_filter toas _ hv]
    have hwf' : ∀ t ∈ toas.table, nameMatches e t = true →
        (getFlag t "f").isSome := fun t ht _ => hwf t ht
    rcases gatherEpoch_first model.dmx e toas.table Gather.init g hg rfl rfl
        rfl rfl hwf' with
      ⟨-, -, -, hdxnil⟩ | ⟨t0, rest', dw', hfil', -, hrcv, hmjd', -⟩
    · rw [hdxnil] at hdw
      exact absurd hdw (by simp)
    · have hmjd2 : mjd = pyInt t0.mjd1 := by
        rw [hmjd] at hmjd'
        exact Option.some.inj hmjd'
      refine ⟨⟨t0, rest', by rw [hlf]; exact hfil', ?_, ?_⟩, ?_, ?_, ?_⟩
      · rw [← hsl, hline]
        exact hrcv
      · rw [← hsl, hline]
        exact hmjd2
      · rw [hlf, ← hsl, hline]
        show (toas.ntoas : ℤ) - (s.ntoas : ℤ) = _
        rw [hnt]
      · rw [hlf, ← hsl, hline]
        exact hsum'
      · rw [← hsl, hline]

/-- Counterexample to claim C8 as stated: in the concrete run `exRun` both
epochs have a sentinel F-test, and the written F-test field is the numeric
string `0.000000e+00` produced by the `e` format spec (Python's `bool` is an
`int` subclass), not the literal sentinel. -/
theorem c8_epochdrop_lines_cex :
    exRun.map (fun o => o.lines.map (·.ftestStr)) =
      .ok ["0.000000e+00", "0.000000e+00"] ∧
    exRun.map (fun o => o.lines.map (·.ftest)) =
      .ok [.sentinel, .sentinel] ∧
    "0.000000e+00" ≠ "False" :=
  ⟨by with_unfolding_all rfl, by with_unfolding_all rfl, by decide⟩

/-- Witness for (amended) C8: the first scenario's run writes one line per
distinct tag, `["a", "b"]` in loop order. -/
theorem c8_epochdrop_lines_witness :
    exOut.lines.map (·.filename) =
      pyset (exToas.table.map (fun t => getFlag t "name")) :=
  (c8_epochdrop_lines fdtr0 exFit exDof exSetup exModel exToas (1 / 1000000)
    exOut (by with_unfolding_all rfl) (by decide) (by decide)).1

/-! ### Claim C7: `calculate_pout` -/

theorem listModify_length {α : Type} :
    ∀ (l : List α) (i : ℕ) (f : α → α), (listModify l i f).length = l.length := by
  intro l
  induction l with
  | nil => intro i f; rfl
  | cons x rest ih =>
      intro i f
      cases i with
      | zero => rfl
      | succ n => simpa [listModify] using ih n f

theorem listModify_get?_ne {α : Type} :
    ∀ (l : List α) (i : ℕ) (f : α → α) (j : ℕ), i ≠ j →
      (listModify l i f).get? j = l.get? j := by
  intro l
  induction l with
  | nil => intro i f j _; rfl
  | cons x rest ih =>
      intro i f j hne
      cases i with
      | zero =>
          cases j with
          | zero => exact absurd rfl hne
          | succ m => rfl
      | succ n =>
          cases j with
          | zero => rfl
          | succ m =>
              show (listModify rest n f).get? m = rest.get? m
              exact ih n f m (by omega)

theorem listModify_get?_eq {α : Type} :
    ∀ (l : List α) (i : ℕ) (f : α → α),
      (listModify l i f).get? i = (l.get? i).map f := by
  intro l
  induction l with
  | nil => intro i f; rfl
  | cons x rest ih =>
      intro i f
      cases i with
      | zero => rfl
      | succ n => exact ih n f

theorem writePoutFlags_preserve (method : String) (p : List ℚ) :
    ∀ (sel : List ℕ) (i : ℕ) (ts ts' : TOAs),
      writePoutFlags method (some p) i sel ts = .ok ts' →
      ts'.sel = ts.sel ∧ ts'.stack = ts.stack ∧
      ts'.orig_table.length = ts.orig_table.length ∧
      ∀ oi, oi ∉ sel → ts'.orig_table.get? oi = ts.orig_table.get? oi := by
  intro sel
  induction sel with
  | nil =>
      intro i ts ts' h
      have : ts = ts' := Except.ok.inj h
      subst this
      exact ⟨rfl, rfl, rfl, fun _ _ => rfl⟩
  | cons oi0 rest ih =>
      intro i ts ts' h0
      have h : (match p.get? i with
            | none => (Except.error "IndexError" : Except String TOAs)
            | some v =>
                if oi0 < ts.orig_table.length then
                  writePoutFlags method (some p) (i + 1) rest
                    ⟨listModify ts.orig_table oi0
                        (fun t => setFlag t ("pout_" ++ method) (FlagVal.num v)),
                     ts.sel, ts.stack⟩
                else Except.error "IndexError") = Except.ok ts' := h0
      cases hp : p.get? i with
      | none => rw [hp] at h; exact absurd h (by simp)
      | some v =>
          rw [hp] at h
          have hI : (if oi0 < ts.orig_table.length then
              writePoutFlags method (some p) (i + 1) rest
                ⟨listModify ts.orig_table oi0
                    (fun t => setFlag t ("pout_" ++ method) (FlagVal.num v)),
                 ts.sel, ts.stack⟩
            else Except.error "IndexError") = Except.ok ts' := h
          split at hI
          · obtain ⟨h1, h2, h3, h4⟩ := ih (i + 1) _ ts' hI
            refine ⟨h1, h2, by rw [h3]; exact listModify_length _ oi0 _,
              fun oi hoi => ?_⟩
            have hnr : oi ∉ rest := fun hc => hoi (by simp [hc])
            have hne : oi0 ≠ oi := fun hc => hoi (by simp [hc])
            rw [h4 oi hnr]
            exact listModify_get?_ne _ oi0 _ oi hne
          · exact absurd hI (by simp)

theorem writePoutFlags_ok (method : String) (p : List ℚ) :
    ∀ (sel : List ℕ) (i : ℕ) (ts : TOAs),
      (∀ k, k < sel.length → (p.get? (i + k)).isSome) →
      (∀ oi ∈ sel, oi < ts.orig_table.length) →
      ∃ ts', writePoutFlags method (some p) i sel ts = .ok ts' := by
  intro sel
  induction sel with
  | nil => intro i ts _ _; exact ⟨ts, rfl⟩
  | cons oi0 rest ih =>
      intro i ts hk hval
      have h0 : (p.get? i).isSome := by
        have := hk 0 (by simp)
        simpa using this
      obtain ⟨v, hv⟩ := Option.isSome_iff_exists.mp h0
      have hlen : oi0 < ts.orig_table.length := hval oi0 (by simp)
      set ts1 : TOAs := ⟨listModify ts.orig_table oi0
          (fun t => setFlag t ("pout_" ++ method) (.num v)),
        ts.sel, ts.stack⟩ with hts1
      obtain ⟨ts', hts'⟩ := ih (i + 1) ts1
        (fun k hk' => by
          have he : i + 1 + k = i + (k + 1) := by omega
          rw [he]
          exact hk (k + 1) (by simpa using Nat.succ_lt_succ hk'))
        (fun oi hoi => by
          show oi < ts1.orig_table.length
          rw [hts1]
          show oi < (listModify ts.orig_table oi0 _).length
          rw [listModify_length]
          exact hval oi (by simp [hoi]))
      refine ⟨ts', ?_⟩
      show (match p.get? i with
        | none => (Except.error "IndexError" : Except String TOAs)
        | some v =>
            if oi0 < ts.orig_table.length then
              writePoutFlags method (some p) (i + 1) rest
                ⟨listModify ts.orig_table oi0
                    (fun t => setFlag t ("pout_" ++ method) (FlagVal.num v)),
                 ts.sel, ts.stack⟩
            else Except.error "IndexError") = Except.ok ts'
      rw [hv]
      show (if oi0 < ts.orig_table.length then
              writePoutFlags method (some p) (i + 1) rest
                ⟨listModify ts.orig_table oi0
                    (fun t => setFlag t ("pout_" ++ method) (FlagVal.num v)),
                 ts.sel, ts.stack⟩
            else Except.error "IndexError") = Except.ok ts'
      rw [if_pos hlen]
      exact hts'

theorem writePoutFlags_get (method : String) (p : List ℚ) :
    ∀ (sel : List ℕ) (i : ℕ) (ts ts' : TOAs),
      writePoutFlags method (some p) i sel ts = .ok ts' → sel.Nodup →
      ∀ k oi v, sel.get? k = some oi → p.get? (i + k) = some v →
        ts'.orig_table.get? oi = (ts.orig_table.get? oi).map
          (fun t => setFlag t ("pout_" ++ method) (.num v)) := by
  intro sel
  induction sel with
  | nil => intro i ts ts' _ _ k oi v hk _; exact absurd hk (by simp)
  | cons oi0 rest ih =>
      intro i ts ts' h0 hnd k oi v hk hv
      have h : (match p.get? i with
            | none => (Except.error "IndexError" : Except String TOAs)
            | some v =>
                if oi0 < ts.orig_table.length then
                  writePoutFlags method (some p) (i + 1) rest
                    ⟨listModify ts.orig_table oi0
                        (fun t => setFlag t ("pout_" ++ method) (FlagVal.num v)),
                     ts.sel, ts.stack⟩
                else Except.error "IndexError") = Except.ok ts' := h0
      cases hp : p.get? i with
      | none => rw [hp] at h; exact absurd h (by simp)
      | some v0 =>
          rw [hp] at h
          have hI : (if oi0 < ts.orig_table.length then
              writePoutFlags method (some p) (i + 1) rest
                ⟨listModify ts.orig_table oi0
                    (fun t => setFlag t ("pout_" ++ method) (FlagVal.num v0)),
                 ts.sel, ts.stack⟩
            else Except.error "IndexError") = Except.ok ts' := h
          split at hI
          · rename_i hlen
            have hnd0 : oi0 ∉ rest := (List.nodup_cons.mp hnd).1
            have hndr : rest.Nodup := (List.nodup_cons.mp hnd).2
            cases k with
            | zero =>
                have hoi : oi0 = oi := Option.some.inj hk
                subst hoi
                have hvv : v0 = v := by
                  rw [show i + 0 = i from rfl, hp] at hv
                  exact Option.some.inj hv
                subst hvv
                obtain ⟨-, -, -, h4⟩ :=
                  writePoutFlags_preserve method p rest (i + 1) _ ts' hI
                rw [h4 oi0 hnd0]
                show (listModify ts.orig_table oi0 _).get? oi0 = _
                exact listModify_get?_eq _ oi0 _
            | succ m =>
                have hkm : rest.get? m = some oi := hk
                have hmem : oi ∈ rest := List.get?_mem hkm
                have hne : oi0 ≠ oi := fun hc => hnd0 (hc ▸ hmem)
                have hv' : p.get? ((i + 1) + m) = some v := by
                  rw [show (i + 1) + m = i + (m + 1) by omega]
                  exact hv
                have := ih (i + 1) _ ts' hI hndr m oi v hkm hv'
                rw [this]
                show ((listModify ts.orig_table oi0 _).get? oi).map _ = _
                rw [listModify_get?_ne _ oi0 _ oi hne]
          · exact absurd hI (by simp)

/-- Claim C7: for an outlier method that is neither `hmc` nor `gibbs`,
`calculate_pout` logs the error message (raising nothing at that point) and
the flag loop then fails with `NameError` on the never-assigned `pout`
(provided the current table is nonempty — with an empty table the loop body
never runs).  For `hmc` and `gibbs` the corresponding external sampler's
probabilities are written, one per current TOA, as the per-TOA flag
`pout_hmc` / `pout_gibbs`. -/
theorem c7_calculate_pout (hmcO gibbsO : TOAs → List ℚ) (model : Model)
    (toas : TOAs) :
    (∀ method : String, method ≠ "hmc" → method ≠ "gibbs" →
      (calculate_pout hmcO gibbsO method model toas).1 =
        ["Specified method (" ++ method ++ ") is not recognized."] ∧
      (toas.sel ≠ [] →
        (calculate_pout hmcO gibbsO method model toas).2 =
          .error "NameError")) ∧
    ((hmcO toas).length = toas.sel.length → toas.sel.Nodup →
      (∀ oi ∈ toas.sel, oi < toas.orig_table.length) →
      (calculate_pout hmcO gibbsO "hmc" model toas).1 = [] ∧
      ∃ o, (calculate_pout hmcO gibbsO "hmc" model toas).2 = .ok o ∧
        ∀ k oi v, toas.sel.get? k = some oi →
          (hmcO toas).get? k = some v →
          o.toas.orig_table.get? oi = (toas.orig_table.get? oi).map
            (fun t => setFlag t "pout_hmc" (.num v))) ∧
    ((gibbsO toas).length = toas.sel.length → toas.sel.Nodup →
      (∀ oi ∈ toas.sel, oi < toas.orig_table.length) →
      (calculate_pout hmcO gibbsO "gibbs" model toas).1 = [] ∧
      ∃ o, (calculate_pout hmcO gibbsO "gibbs" model toas).2 = .ok o ∧
        ∀ k oi v, toas.sel.get? k = some oi →
          (gibbsO toas).get? k = some v →
          o.toas.orig_table.get? oi = (toas.orig_table.get? oi).map
            (fun t => setFlag t "pout_gibbs" (.num v))) := by
  refine ⟨?_, ?_, ?_⟩
  · intro method h1 h2
    constructor
    · simp [calculate_pout, h1, h2]
    · intro hsel
      cases hs : toas.sel with
      | nil => exact absurd hs hsel
      | cons oi0 rest =>
          simp [calculate_pout, h1, h2, hs, writePoutFlags,
            Bind.bind, Except.bind]
  · intro hlen hnd hval
    have hidx : ∀ k, k < toas.sel.length → ((hmcO toas).get? (0 + k)).isSome := by
      intro k hk
      have : (0 + k) < (hmcO toas).length := by rw [hlen]; omega
      rw [List.get?_eq_get this]; rfl
    obtain ⟨ts', hts'⟩ :=
      writePoutFlags_ok "hmc" (hmcO toas) toas.sel 0 toas hidx hval
    refine ⟨by simp [calculate_pout], ?_⟩
    refine ⟨⟨ts', model, ts'.restoreFull,
      apply_cut_select ts'.restoreFull "resumption after write_tim, pout"⟩,
      ?_, ?_⟩
    · simp [calculate_pout, Bind.bind, Except.bind, hts', Pure.pure,
        Except.pure]
    · intro k oi v hk hv
      exact writePoutFlags_get "hmc" (hmcO toas) toas.sel 0 toas ts' hts' hnd
        k oi v hk (by simpa using hv)
  · intro hlen hnd hval
    have hidx : ∀ k, k < toas.sel.length →
        ((gibbsO toas).get? (0 + k)).isSome := by
      intro k hk
      have : (0 + k) < (gibbsO toas).length := by rw [hlen]; omega
      rw [List.get?_eq_get this]; rfl
    obtain ⟨ts', hts'⟩ :=
      writePoutFlags_ok "gibbs" (gibbsO toas) toas.sel 0 toas hidx hval
    refine ⟨by simp [calculate_pout], ?_⟩
    refine ⟨⟨ts', model, ts'.restoreFull,
      apply_cut_select ts'.restoreFull "resumption after write_tim, pout"⟩,
      ?_, ?_⟩
    · simp [calculate_pout, Bind.bind, Except.bind, hts', Pure.pure,
        Except.pure]
    · intro k oi v hk hv
      exact writePoutFlags_get "gibbs" (gibbsO toas) toas.sel 0 toas ts' hts'
        hnd k oi v hk (by simpa using hv)

/-- A concrete sampler for the witness: probability `1/2` per TOA. -/
def exSampler : TOAs → List ℚ := fun ts => ts.sel.map (fun _ => 1 / 2)

/-- Witness for C7: with the unrecognized method `"foo"` the error is logged
and the outcome is the `NameError`; with `"hmc"` and `"gibbs"` nothing is
logged and the run succeeds with a pout flag per TOA. -/
theorem c7_calculate_pout_witness :
    (calculate_pout exSampler exSampler "foo" exModel exToas).1 =
      ["Specified method (" ++ "foo" ++ ") is not recognized."] ∧
    (calculate_pout exSampler exSampler "foo" exModel exToas).2 =
      .error "NameError" ∧
    (calculate_pout exSampler exSampler "hmc" exModel exToas).1 = [] ∧
    (calculate_pout exSampler exSampler "gibbs" exModel exToas).1 = [] :=
  ⟨((c7_calculate_pout exSampler exSampler exModel exToas).1 "foo"
      (by decide) (by decide)).1,
   ((c7_calculate_pout exSampler exSampler exModel exToas).1 "foo"
      (by decide) (by decide)).2 (by decide),
   ((c7_calculate_pout exSampler exSampler exModel exToas).2.1
      (by decide) (by decide) (by decide)).1,
   ((c7_calculate_pout exSampler exSampler exModel exToas).2.2
      (by decide) (by decide) (by decide)).1⟩

end OutlierUtils
